import Mathlib

/-!
Verification development for the Personal-User-Feed ingestion pipeline.

The TypeScript source under scrutiny consists of the RSS feed discovery,
feed fetch/parse, RSS repository (`rss-ingest.ts`), and the Gmail/Substack
ingestion (`gmail-ingest.ts`).  Pure computations (content hashing, parsing
fallbacks, dedup decisions, state updates) are shallowly embedded below as
executable Lean functions; database tables are embedded as lists of row
structures; network I/O is embedded as explicit environment parameters.

JavaScript string semantics notes used throughout:
* Template literals concatenate with `++`.
* `a || b` on strings treats the empty string and `undefined` as falsy and
  is embedded as `jsOr` / `jsOrStr` below.
* `crypto.createHash("sha256") ... digest("hex")` is embedded by a full
  SHA-256 implementation over the UTF-8 bytes of the input string.
-/

-- ============================================================================
-- SHA-256 (semantics of Node's crypto.createHash("sha256"), FIPS 180-4)
-- ============================================================================

namespace SpecSha

/-- 2^32, the word modulus of SHA-256. -/
def M32 : Nat := 4294967296

/-- Reduce to a 32-bit word. -/
def w32 (x : Nat) : Nat := x % M32

/-- Right rotation of a 32-bit word. -/
def rotr (n x : Nat) : Nat := w32 ((x >>> n) ||| (x <<< (32 - n)))

/-- Logical right shift. -/
def shr (n x : Nat) : Nat := x >>> n

def bsig0 (x : Nat) : Nat := (rotr 2 x) ^^^ (rotr 13 x) ^^^ (rotr 22 x)

def bsig1 (x : Nat) : Nat := (rotr 6 x) ^^^ (rotr 11 x) ^^^ (rotr 25 x)

def ssig0 (x : Nat) : Nat := (rotr 7 x) ^^^ (rotr 18 x) ^^^ (shr 3 x)

def ssig1 (x : Nat) : Nat := (rotr 17 x) ^^^ (rotr 19 x) ^^^ (shr 10 x)

def chf (x y z : Nat) : Nat := (x &&& y) ^^^ ((x ^^^ 4294967295) &&& z)

def majf (x y z : Nat) : Nat := (x &&& y) ^^^ (x &&& z) ^^^ (y &&& z)

/-- The SHA-256 round constants, eight rows of eight (FIPS 180-4 §4.2.2). -/
def K64 : List Nat :=
  [0x428a2f98, 0x71374491, 0xb5c0fbcf, 0xe9b5dba5, 0x3956c25b, 0x59f111f1, 0x923f82a4] ++
  [0xab1c5ed5, 0xd807aa98, 0x12835b01, 0x243185be, 0x550c7dc3, 0x72be5d74, 0x80deb1fe] ++
  [0x9bdc06a7, 0xc19bf174, 0xe49b69c1, 0xefbe4786, 0x0fc19dc6, 0x240ca1cc, 0x2de92c6f] ++
  [0x4a7484aa, 0x5cb0a9dc, 0x76f988da, 0x983e5152, 0xa831c66d, 0xb00327c8, 0xbf597fc7] ++
  [0xc6e00bf3, 0xd5a79147, 0x06ca6351, 0x14292967, 0x27b70a85, 0x2e1b2138, 0x4d2c6dfc] ++
  [0x53380d13, 0x650a7354, 0x766a0abb, 0x81c2c92e, 0x92722c85, 0xa2bfe8a1, 0xa81a664b] ++
  [0xc24b8b70, 0xc76c51a3, 0xd192e819, 0xd6990624, 0xf40e3585, 0x106aa070, 0x19a4c116] ++
  [0x1e376c08, 0x2748774c, 0x34b0bcb5, 0x391c0cb3, 0x4ed8aa4a, 0x5b9cca4f, 0x682e6ff3] ++
  [0x748f82ee, 0x78a5636f, 0x84c87814, 0x8cc70208, 0x90befffa, 0xa4506ceb, 0xbef9a3f7] ++
  [0xc67178f2]

/-- The eight SHA-256 working variables. -/
structure Digest where
  a : Nat
  b : Nat
  c : Nat
  d : Nat
  e : Nat
  f : Nat
  g : Nat
  h : Nat
deriving DecidableEq, Repr

/-- The SHA-256 initial hash value. -/
def H0 : Digest :=
  ⟨0x6a09e667, 0xbb67ae85, 0x3c6ef372, 0xa54ff53a, 0x510e527f, 0x9b05688c, 0x1f83d9ab, 0x5be0cd19⟩

/-- One compression round. -/
def roundStep (st : Digest) (kw : Nat × Nat) : Digest :=
  let t1 := w32 (st.h + bsig1 st.e + chf st.e st.f st.g + kw.1 + kw.2)
  let t2 := w32 (bsig0 st.a + majf st.a st.b st.c)
  ⟨w32 (t1 + t2), st.a, st.b, st.c, w32 (st.d + t1), st.e, st.f, st.g⟩

/-- Extend a 16-word block to the 64-word message schedule. -/
def extendW (ws : List Nat) : Nat → List Nat
  | 0 => ws
  | n + 1 =>
    let t := ws.length
    let nw := w32 (ssig1 (ws.getD (t - 2) 0) + ws.getD (t - 7) 0 +
                   ssig0 (ws.getD (t - 15) 0) + ws.getD (t - 16) 0)
    extendW (ws ++ [nw]) n

/-- Compress one 16-word block into the running digest. -/
def compressBlock (st : Digest) (block : List Nat) : Digest :=
  let ws := extendW block 48
  let r := (K64.zip ws).foldl roundStep st
  ⟨w32 (st.a + r.a), w32 (st.b + r.b), w32 (st.c + r.c), w32 (st.d + r.d),
   w32 (st.e + r.e), w32 (st.f + r.f), w32 (st.g + r.g), w32 (st.h + r.h)⟩

/-- UTF-8 bytes of one character. -/
def utf8Bytes (c : Char) : List Nat :=
  let n := c.toNat
  if n < 0x80 then [n]
  else if n < 0x800 then [0xC0 ||| (n >>> 6), 0x80 ||| (n &&& 0x3F)]
  else if n < 0x10000 then
    [0xE0 ||| (n >>> 12), 0x80 ||| ((n >>> 6) &&& 0x3F), 0x80 ||| (n &&& 0x3F)]
  else
    [0xF0 ||| (n >>> 18), 0x80 ||| ((n >>> 12) &&& 0x3F),
     0x80 ||| ((n >>> 6) &&& 0x3F), 0x80 ||| (n &&& 0x3F)]

/-- UTF-8 bytes of a string. -/
def strBytes (s : String) : List Nat := (s.data.map utf8Bytes).flatten

/-- SHA-256 padding: 0x80, zeros to 56 mod 64, then the 64-bit big-endian bit length. -/
def padMessage (bytes : List Nat) : List Nat :=
  let len := bytes.length
  let bitLen := len * 8
  let k := (56 - (len + 1) % 64 + 64) % 64
  bytes ++ [0x80] ++ List.replicate k 0 ++
    [(bitLen >>> 56) &&& 255, (bitLen >>> 48) &&& 255, (bitLen >>> 40) &&& 255,
     (bitLen >>> 32) &&& 255, (bitLen >>> 24) &&& 255, (bitLen >>> 16) &&& 255,
     (bitLen >>> 8) &&& 255, bitLen &&& 255]

/-- Big-endian 4-byte groups to 32-bit words. -/
def bytesToWords : List Nat → List Nat
  | b0 :: b1 :: b2 :: b3 :: rest =>
    ((((b0 <<< 8) ||| b1) <<< 8 ||| b2) <<< 8 ||| b3) :: bytesToWords rest
  | _ => []

/-- Split a word list into 16-word blocks. -/
def chunk16Aux : Nat → List Nat → List (List Nat)
  | 0, _ => []
  | _ + 1, [] => []
  | fuel + 1, w :: rest => (w :: rest).take 16 :: chunk16Aux fuel ((w :: rest).drop 16)

/-- Split a word list into 16-word blocks (fuel-based for kernel reducibility;
each step consumes at least one element, so `ws.length` fuel suffices). -/
def chunk16 (ws : List Nat) : List (List Nat) := chunk16Aux ws.length ws

/-- The SHA-256 digest of a byte list. -/
def sha256Digest (bytes : List Nat) : Digest :=
  (chunk16 (bytesToWords (padMessage bytes))).foldl compressBlock H0

/-- Lowercase hex digit. -/
def hexDigitChar (n : Nat) : Char := Char.ofNat (if n < 10 then 48 + n else 87 + n)

/-- Eight lowercase hex characters of a 32-bit word. -/
def word32Hex (w : Nat) : List Char :=
  [hexDigitChar ((w >>> 28) &&& 15), hexDigitChar ((w >>> 24) &&& 15),
   hexDigitChar ((w >>> 20) &&& 15), hexDigitChar ((w >>> 16) &&& 15),
   hexDigitChar ((w >>> 12) &&& 15), hexDigitChar ((w >>> 8) &&& 15),
   hexDigitChar ((w >>> 4) &&& 15), hexDigitChar (w &&& 15)]

/-- Full 64-character lowercase hex encoding of a digest. -/
def digestHex (d : Digest) : String :=
  String.mk (word32Hex d.a ++ word32Hex d.b ++ word32Hex d.c ++ word32Hex d.d ++
             word32Hex d.e ++ word32Hex d.f ++ word32Hex d.g ++ word32Hex d.h)

/-- `crypto.createHash("sha256").update(s).digest("hex")`. -/
def sha256Hex (s : String) : String := digestHex (sha256Digest (strBytes s))

end SpecSha

-- ============================================================================
-- JavaScript string semantics helpers
-- ============================================================================

namespace JsStr

/-- JS `a || b` on optional strings: `undefined` and `""` are falsy. -/
def jsOr (a b : Option String) : Option String :=
  match a with
  | some s => if s = "" then b else some s
  | none => b

/-- JS `a || d` producing a string. -/
def jsOrStr (a : Option String) (d : String) : String :=
  match a with
  | some s => if s = "" then d else s
  | none => d

/-- JS `s.substring(a, b)` (for ASCII content, code units coincide with chars). -/
def jsSubstring (s : String) (a b : Nat) : String :=
  String.mk ((s.data.drop a).take (b - a))

/-- JS `s.toLowerCase()` (ASCII-adequate). -/
def toLowerStr (s : String) : String := String.map Char.toLower s

def isWhitespaceChar (c : Char) : Bool :=
  c = ' ' ∨ c = '\t' ∨ c = '\n' ∨ c = '\r' ∨ c = '\x0b' ∨ c = '\x0c'

/-- JS `s.trim()` (common whitespace; computed structurally on the
character list). -/
def trimStr (s : String) : String :=
  String.mk (((s.data.dropWhile isWhitespaceChar).reverse.dropWhile isWhitespaceChar).reverse)

/-- JS `s.includes(sub)`: substring containment. -/
def includes (s sub : String) : Bool := decide (sub.data <:+: s.data)

/-- JS `s.split(sep)[0]` for a single-character separator: prefix before first hit. -/
def splitFirst (s : String) (sep : Char) : String :=
  String.mk (s.data.takeWhile (fun c => c ≠ sep))

end JsStr

-- ============================================================================
-- FEED PARSER (src/rss/feed-parser.ts)
-- ============================================================================

namespace FeedParser

open JsStr

/-- `ParsedFeedItem` of feed-parser.ts. -/
structure ParsedFeedItem where
  title : String
  url : String
  description : Option String
  contentHtml : Option String
  publishedAt : String
  author : Option String
  hash : String
  guid : Option String
deriving DecidableEq, Repr

/-- `ParsedFeed` of feed-parser.ts. -/
structure ParsedFeed where
  title : Option String
  description : Option String
  link : Option String
  items : List ParsedFeedItem
deriving DecidableEq, Repr

/-- The `data` template string of `generateContentHash`. -/
def hashData (url title content : String) : String :=
  url ++ "|" ++ title ++ "|" ++ content

/-- `generateContentHash` of feed-parser.ts:
SHA-256 of `url|title|content`, hex, truncated by `substring(0, 16)`. -/
def generateContentHash (url title content : String) : String :=
  jsSubstring (SpecSha.sha256Hex (hashData url title content)) 0 16

/-- Remove `<[^>]*>` spans, as the first regex replace of `stripHtmlTags` does.
Fuel-based scanner; a `<` with no closing `>` has no match and is kept. -/
def removeTagsAux : Nat → List Char → List Char
  | 0, cs => cs
  | _ + 1, [] => []
  | fuel + 1, c :: rest =>
    if c = '<' then
      match rest.dropWhile (fun x => x ≠ '>') with
      | [] => c :: removeTagsAux fuel rest
      | _ :: after => removeTagsAux fuel after
    else c :: removeTagsAux fuel rest

/-- Global, left-to-right, non-overlapping literal replacement (JS
`String.replace(/lit/g, rep)` for a literal pattern). -/
def replaceAllAux : Nat → List Char → List Char → List Char → List Char
  | 0, _, _, cs => cs
  | _ + 1, _, _, [] => []
  | fuel + 1, pat, rep, c :: rest =>
    if pat.isPrefixOf (c :: rest) then
      rep ++ replaceAllAux fuel pat rep ((c :: rest).drop pat.length)
    else c :: replaceAllAux fuel pat rep rest

def replaceAllLit (cs : List Char) (pat rep : String) : List Char :=
  replaceAllAux cs.length pat.data rep.data cs

/-- `stripHtmlTags` of feed-parser.ts. -/
def stripHtmlTags (html : String) : String :=
  let cs := removeTagsAux html.data.length html.data
  let cs := replaceAllLit cs "&nbsp;" " "
  let cs := replaceAllLit cs "&amp;" "&"
  let cs := replaceAllLit cs "&lt;" "<"
  let cs := replaceAllLit cs "&gt;" ">"
  let cs := replaceAllLit cs "&quot;" "\""
  let cs := replaceAllLit cs "&#39;" "'"
  JsStr.trimStr (String.mk cs)

/-- `truncateText` of feed-parser.ts. -/
def truncateText (text : String) (maxLength : Nat) : String :=
  if text.data.length ≤ maxLength then text
  else String.mk (text.data.take (maxLength - 3)) ++ "..."

/-- One item as produced by the `rss-parser` library for an RSS/Atom feed:
the fields `parseRssOrAtom` reads.  (`content` is the RSS `<description>` /
Atom `<content>`; `contentEncoded` is `content:encoded`; `creator` is the
`dc:creator` custom field; `authorName` is `(item as any).author?.name`.) -/
structure RawItem where
  title : Option String
  link : Option String
  guid : Option String
  creator : Option String
  authorName : Option String
  contentEncoded : Option String
  content : Option String
  contentSnippet : Option String
  description : Option String
  pubDate : Option String
deriving DecidableEq, Repr

/-- The feed-level fields `parseRssOrAtom` reads from the `rss-parser` output. -/
structure RawFeed where
  title : Option String
  description : Option String
  link : Option String
  items : List RawItem
deriving DecidableEq, Repr

/-- The item mapping inside `parseRssOrAtom`.  `now` stands for
`new Date().toISOString()`; timestamp normalization of an existing `pubDate`
is modeled as the identity (it is a pure reformat, irrelevant to the claims). -/
def parseRawItem (now : String) (item : RawItem) : ParsedFeedItem :=
  let contentHtml := jsOr item.contentEncoded item.content
  let author := jsOr item.creator item.authorName
  let guid := jsOrStr (jsOr item.guid item.link) ""
  let url := jsOrStr item.link guid
  let hash := generateContentHash url (jsOrStr item.title "") (jsOrStr contentHtml "")
  { title := jsOrStr item.title "Untitled"
    url := url
    description := some (stripHtmlTags (jsOrStr (jsOr item.contentSnippet item.description) ""))
    contentHtml := contentHtml
    publishedAt := jsOrStr item.pubDate now
    author := author
    hash := hash
    guid := some guid }

/-- `parseRssOrAtom` of feed-parser.ts (downstream of the `rss-parser` XML
parse, which is an external library and is represented by `RawFeed`). -/
def parseRssOrAtom (now : String) (feed : RawFeed) : ParsedFeed :=
  { title := feed.title
    description := feed.description
    link := feed.link
    items := feed.items.map (parseRawItem now) }

/-- One JSON-feed item: the native JSON fields `parseJsonFeed` reads. -/
structure JsonItem where
  id : Option String
  url : Option String
  title : Option String
  content_html : Option String
  content_text : Option String
  summary : Option String
  date_published : Option String
  authorName : Option String
deriving DecidableEq, Repr

/-- A JSON-feed document: the fields `parseJsonFeed` reads. -/
structure JsonFeedDoc where
  title : Option String
  description : Option String
  home_page_url : Option String
  items : List JsonItem
deriving DecidableEq, Repr

/-- The item mapping inside `parseJsonFeed`.  When both `url` and `id` are
absent, the JS template literal coerces `undefined` to the string
"undefined"; the model reproduces that. -/
def parseJsonItem (now : String) (item : JsonItem) : ParsedFeedItem :=
  let url := jsOrStr (jsOr item.url item.id) "undefined"
  let contentHtml := jsOr item.content_html none
  let hash := generateContentHash url (jsOrStr item.title "")
    (jsOrStr (jsOr contentHtml item.content_text) "")
  { title := jsOrStr item.title "Untitled"
    url := url
    description := some (jsOrStr item.summary (stripHtmlTags (jsOrStr item.content_text "")))
    contentHtml := contentHtml
    publishedAt := jsOrStr item.date_published now
    author := item.authorName
    hash := hash
    guid := item.id }

/-- `parseJsonFeed` of feed-parser.ts. -/
def parseJsonFeed (now : String) (feed : JsonFeedDoc) : ParsedFeed :=
  { title := feed.title
    description := feed.description
    link := feed.home_page_url
    items := feed.items.map (parseJsonItem now) }

end FeedParser

-- ============================================================================
-- RSS REPOSITORY AND INGESTION SERVICE (src/rss/rss-ingest.ts)
-- ============================================================================

namespace RssRepo

open JsStr
open FeedParser

inductive FeedType
  | rss
  | atom
  | jsonFeed
deriving DecidableEq, Repr

inductive SyncStatus
  | success
  | error
deriving DecidableEq, Repr

inductive DiscoveryMethod
  | wellKnownPath
  | htmlLinkTag
  | manual
deriving DecidableEq, Repr

/-- A row of `rssSourcesTable`. -/
structure RssSource where
  sourceId : String
  userId : String
  siteUrl : String
  feedUrl : String
  feedType : FeedType
  feedTitle : Option String
  feedDescription : Option String
  discoveryMethod : DiscoveryMethod
  etag : Option String
  lastModified : Option String
  lastCheckedAt : Option String
  lastSyncedAt : Option String
  lastSyncStatus : Option SyncStatus
  lastSyncError : Option String
  isActive : Bool
deriving DecidableEq, Repr

/-- A row of `creatorsTable` (numeric/null-constant columns omitted). -/
structure CreatorRow where
  creatorId : String
  sourceType : String
  externalId : String
  name : String
  handle : Option String
  bio : Option String
  profileUrl : String
  firstSeenAt : String
  lastUpdatedAt : String
deriving DecidableEq, Repr

/-- A row of `contentItemsTable` (numeric/null-constant columns omitted;
`metadata` JSON serialization is modeled as a plain field pairing). -/
structure ContentRow where
  contentId : String
  creatorId : String
  sourceType : String
  externalId : String
  title : String
  description : String
  contentUrl : String
  mediaType : String
  publishedAt : String
  addedAt : String
  updatedAt : Option String
  metadataAuthor : Option String
  metadataContentHtml : Option String
  isArchived : Bool
  contentHash : String
deriving DecidableEq, Repr

/-- The database state the RSS repository reads and writes.  `nextId` models
the `nanoid()` fresh-identifier supply as a counter. -/
structure RssState where
  sources : List RssSource
  creators : List CreatorRow
  contentItems : List ContentRow
  nextId : Nat
deriving DecidableEq, Repr

/-- `updateSourceSync` of rss-ingest.ts: sets lastCheckedAt, lastSyncedAt
(only on success; drizzle `undefined` leaves the column as it was),
lastSyncStatus, and lastSyncError (`error || null`). -/
def updateSourceSync (now sourceId : String) (status : SyncStatus) (err : Option String)
    (st : RssState) : RssState :=
  { st with sources := st.sources.map (fun s =>
      if s.sourceId == sourceId then
        { s with lastCheckedAt := some now
                 lastSyncedAt := if status = SyncStatus.success then some now else s.lastSyncedAt
                 lastSyncStatus := some status
                 lastSyncError := jsOr err none }
      else s) }

/-- `updateSourceHeaders` of rss-ingest.ts: sets etag and lastModified
(`etag || null`, `lastModified || null`). -/
def updateSourceHeaders (sourceId : String) (etag lastModified : Option String)
    (st : RssState) : RssState :=
  { st with sources := st.sources.map (fun s =>
      if s.sourceId == sourceId then
        { s with etag := jsOr etag none, lastModified := jsOr lastModified none }
      else s) }

/-- `upsertCreator` of rss-ingest.ts: the feed URL is the external id;
update name/bio if the creator exists, insert otherwise. -/
def upsertCreator (now feedUrl feedTitle : String) (feedDescription : Option String)
    (st : RssState) : String × RssState :=
  let externalId := feedUrl
  match st.creators.find? (fun c => c.sourceType == "rss" && c.externalId == externalId) with
  | some existing =>
    (existing.creatorId,
     { st with creators := st.creators.map (fun c =>
         if c.creatorId == existing.creatorId then
           { c with name := feedTitle, bio := jsOr feedDescription none, lastUpdatedAt := now }
         else c) })
  | none =>
    let creatorId := "rss-" ++ toString st.nextId
    (creatorId,
     { st with nextId := st.nextId + 1
               creators := st.creators ++
        [{ creatorId := creatorId, sourceType := "rss", externalId := externalId,
           name := feedTitle, handle := none, bio := jsOr feedDescription none,
           profileUrl := feedUrl, firstSeenAt := now, lastUpdatedAt := now }] })

/-- One iteration of the `upsertPosts` loop of rss-ingest.ts.  The lookup is
by `(sourceType = "rss", contentHash = post.hash)`; on a hit the code then
compares `existingPost.contentHash !== post.hash` (kept verbatim here even
though the lookup makes it always false) and otherwise skips; on a miss a
new row is inserted and the new-post counter incremented. -/
def upsertStep (now creatorId : String) (acc : RssState × Nat) (post : ParsedFeedItem) :
    RssState × Nat :=
  let st := acc.1
  let count := acc.2
  match st.contentItems.find? (fun r => r.sourceType == "rss" && r.contentHash == post.hash) with
  | some existingPost =>
    if existingPost.contentHash != post.hash then
      ({ st with contentItems := st.contentItems.map (fun r =>
           if r.contentId == existingPost.contentId then
             { r with title := post.title
                      description := truncateText (jsOrStr post.description "") 500
                      contentHash := post.hash
                      updatedAt := some now }
           else r) }, count)
    else (st, count)
  | none =>
    let contentId := "c" ++ toString st.nextId
    ({ st with nextId := st.nextId + 1
               contentItems := st.contentItems ++
       [{ contentId := contentId, creatorId := creatorId, sourceType := "rss",
          externalId := jsOrStr post.guid post.url, title := post.title,
          description := truncateText (jsOrStr post.description "") 500,
          contentUrl := post.url, mediaType := "article",
          publishedAt := post.publishedAt, addedAt := now, updatedAt := none,
          metadataAuthor := post.author, metadataContentHtml := post.contentHtml,
          isArchived := false, contentHash := post.hash }] }, count + 1)

/-- `upsertPosts` of rss-ingest.ts: fold the loop body over the posts,
returning the new state and `newPostsCount`. -/
def upsertPosts (now creatorId : String) (st : RssState) (posts : List ParsedFeedItem) :
    RssState × Nat :=
  posts.foldl (upsertStep now creatorId) (st, 0)

/-- Outcome of one `fetchAndParseFeed` call, the network boundary of
`syncSource`: `notModified` is the `null` return on HTTP 304, `ok` carries
the parsed feed and fresh caching headers, `failure` is a thrown error
(non-2xx response, network failure, or parse failure). -/
inductive FetchOutcome
  | notModified
  | ok (feed : ParsedFeed) (etag lastModified : Option String)
  | failure (message : String)
deriving DecidableEq, Repr

/-- `RssIngestionService.syncSource`, with the network modeled as an
environment `env` from feed URL to fetch outcome.  Returns the state after
all repository writes, plus `Except.error` when the TS method throws
(the state component still reflects writes made before the throw). -/
def syncSource (env : String → FetchOutcome) (now : String) (st : RssState)
    (sourceId : String) : RssState × Except String Unit :=
  match st.sources.find? (fun s => s.sourceId == sourceId) with
  | none => (st, Except.error ("Source not found or inactive: " ++ sourceId))
  | some source =>
    if !source.isActive then
      (st, Except.error ("Source not found or inactive: " ++ sourceId))
    else
      match env source.feedUrl with
      | FetchOutcome.notModified =>
        (updateSourceSync now sourceId SyncStatus.success none st, Except.ok ())
      | FetchOutcome.failure msg =>
        (updateSourceSync now sourceId SyncStatus.error (some msg) st, Except.error msg)
      | FetchOutcome.ok feed etag lastModified =>
        let st1 := updateSourceHeaders sourceId etag lastModified st
        let cr := upsertCreator now source.feedUrl
          (jsOrStr (jsOr feed.title source.feedTitle) "Untitled Blog")
          (jsOr feed.description source.feedDescription) st1
        let up := upsertPosts now cr.1 cr.2 feed.items
        (updateSourceSync now sourceId SyncStatus.success none up.1, Except.ok ())

/-- `getUserSources`: the user's active sources (the `addedAt` ordering of
the query is immaterial here and omitted). -/
def getUserSources (st : RssState) (userId : String) : List RssSource :=
  st.sources.filter (fun s => s.userId == userId && s.isActive)

/-- `RssIngestionService.syncAllSources`: sync each active source of the
user in turn, catching and discarding any per-source error. -/
def syncAllSources (env : String → FetchOutcome) (now : String) (st : RssState)
    (userId : String) : RssState :=
  (getUserSources st userId).foldl (fun acc s => (syncSource env now acc s.sourceId).1) st

end RssRepo

-- ============================================================================
-- GMAIL / SUBSTACK INGESTION (src/gmail/gmail-ingest.ts)
-- ============================================================================

namespace GmailIngest

open JsStr

/-- One message header. -/
structure Header where
  name : String
  value : String
deriving DecidableEq, Repr

/-- One body part.  `data` is the body payload; the Node `Buffer` base64
transport decoding is an external stdlib bijection and is modeled as the
identity, so `data` holds the decoded text. -/
structure MessagePart where
  mimeType : String
  data : Option String
deriving DecidableEq, Repr

/-- `GmailMessage` of gmail-ingest.ts (payload flattened). -/
structure GmailMessage where
  id : String
  threadId : String
  headers : List Header
  parts : List MessagePart
  body : Option String
  internalDate : Option String
  snippet : Option String
deriving DecidableEq, Repr

/-- `SubstackPost` of gmail-ingest.ts. -/
structure SubstackPost where
  messageId : String
  author : String
  authorEmail : String
  title : String
  postUrl : String
  snippet : String
  publishedAt : String
  htmlContent : String
deriving DecidableEq, Repr

/-- `headers.find(h => h.name.toLowerCase() === key)?.value`. -/
def headerValue (headers : List Header) (key : String) : Option String :=
  (headers.find? (fun h => toLowerStr h.name == key)).map (fun h => h.value)

/-- The JS regex `^(.*?)\s*<(.+?)>$` applied to the From header: when the
string ends in `>` and a nonempty span sits between the first `<` and that
final `>`, group 1 is the text before the first `<` and group 2 that span
(both `.trim()`ed by the caller); otherwise the whole string is used as
both name and address. -/
def parseFromHeader (s : String) : String × String :=
  let cs := s.data
  if cs.getLast? = some '>' then
    let before := cs.takeWhile (fun c => c ≠ '<')
    let rest := cs.drop (before.length + 1)
    let between := rest.dropLast
    if before.length < cs.length ∧ between ≠ [] then
      (trimStr (String.mk before), trimStr (String.mk between))
    else (s, s)
  else (s, s)

/-- Locate the HTML body: first `text/html` part with a truthy payload, else
the direct body payload, else empty (JS `""` is falsy throughout). -/
def getHtmlContent (m : GmailMessage) : String :=
  let fromParts :=
    match m.parts.find? (fun p => p.mimeType == "text/html" &&
        (match p.data with | some d => d != "" | none => false)) with
    | some p => (match p.data with | some d => d | none => "")
    | none => ""
  if fromParts != "" then fromParts
  else match m.body with
       | some d => d
       | none => ""

/-- Stop set of the URL regex `https?:\/\/[^\s"'<>]+`. -/
def urlStop (c : Char) : Bool :=
  c = ' ' ∨ c = '\t' ∨ c = '\n' ∨ c = '\r' ∨ c = '"' ∨ c = '\'' ∨ c = '<' ∨ c = '>'

/-- Strip a leading `https://` or `http://`. -/
def stripHttpPrefix (cs : List Char) : Option (List Char) :=
  if "https://".data.isPrefixOf cs then some (cs.drop 8)
  else if "http://".data.isPrefixOf cs then some (cs.drop 7)
  else none

/-- All matches of `htmlContent.match(/https?:\/\/[^\s"'<>]+/g)`: scan for
an `http(s)://` prefix, take the maximal run of non-stop characters (which
must extend past the prefix), continue after the match. -/
def extractUrlsAux : Nat → List Char → List String
  | 0, _ => []
  | _ + 1, [] => []
  | fuel + 1, c :: rest =>
    match stripHttpPrefix (c :: rest) with
    | some after =>
      let run := (c :: rest).takeWhile (fun x => !urlStop x)
      if run.length > (c :: rest).length - after.length then
        String.mk run :: extractUrlsAux fuel ((c :: rest).drop run.length)
      else extractUrlsAux fuel rest
    | none => extractUrlsAux fuel rest

def extractUrls (html : String) : List String :=
  extractUrlsAux html.data.length html.data

/-- The skip rules of the URL loop (CDN, images, profiles, live streams). -/
def isSkippedUrl (url : String) : Bool :=
  includes url "substackcdn.com" || includes url "/image/" ||
  includes url "substack.com/@" || includes url "open.substack.com/live-stream"

/-- Does a match of `https?:\/\/[^\/]+\.substack\.com\/p\/[^?&#]+` start at
this position: an `http(s)://` prefix, a slash-free host ending in
`.substack.com` (with a nonempty subdomain), then `/p/` and at least one
character outside `?&#`. -/
def directPostAt (cs : List Char) : Bool :=
  match stripHttpPrefix cs with
  | none => false
  | some rest =>
    let host := rest.takeWhile (fun c => c ≠ '/')
    let tail := rest.drop host.length
    decide (".substack.com".data <:+ host) && host.length > 13 &&
      "/p/".data.isPrefixOf tail &&
      (match tail.drop 3 with
       | c :: _ => !(c = '?' ∨ c = '&' ∨ c = '#')
       | [] => false)

/-- `url.match(/https?:\/\/[^\/]+\.substack\.com\/p\/[^?&#]+/)` as a
substring test. -/
def matchesDirectPost (url : String) : Bool :=
  url.data.tails.any directPostAt

/-- The candidate-URL loop of `parseSubstackPost`: skip excluded URLs, take
the first direct post URL (query string stripped), else the first app-link
URL carrying a `post_id` parameter. -/
def firstPostUrl : List String → Option String
  | [] => none
  | url :: rest =>
    if isSkippedUrl url then firstPostUrl rest
    else if matchesDirectPost url then some (splitFirst url '?')
    else if includes url "substack.com/app-link/post?" && includes url "post_id=" then some url
    else firstPostUrl rest

def isB64Char (c : Char) : Bool :=
  c.isAlpha ∨ c.isDigit ∨ c = '+' ∨ c = '/' ∨ c = '='

/-- A match of `https:\/\/substack\.com\/redirect\/\d+\/[A-Za-z0-9+/=]+`
starting at this position (maximal munch), or `none`. -/
def redirectAt (cs : List Char) : Option String :=
  let pre := "https://substack.com/redirect/".data
  if pre.isPrefixOf cs then
    let rest := cs.drop pre.length
    let ds := rest.takeWhile Char.isDigit
    let rest2 := rest.drop ds.length
    if ds ≠ [] then
      match rest2 with
      | '/' :: rest3 =>
        let bs := rest3.takeWhile isB64Char
        if bs ≠ [] then some (String.mk (pre ++ ds ++ ('/' :: bs))) else none
      | _ => none
    else none
  else none

/-- First match of the redirect-URL regex over the whole HTML. -/
def redirectMatchAux : Nat → List Char → Option String
  | 0, _ => none
  | _ + 1, [] => none
  | fuel + 1, c :: rest =>
    match redirectAt (c :: rest) with
    | some u => some u
    | none => redirectMatchAux fuel rest

def redirectMatch (html : String) : Option String :=
  redirectMatchAux html.data.length html.data

/-- The post-URL extraction of `parseSubstackPost`: the candidate loop over
all URLs, then the redirect-URL fallback. -/
def findPostUrl (html : String) : Option String :=
  match firstPostUrl (extractUrls html) with
  | some u => some u
  | none => redirectMatch html

/-- `parseSubstackPost` of gmail-ingest.ts.  Timestamp normalization
(`new Date(...).toISOString()`) is modeled as the identity. -/
def parseSubstackPost (m : GmailMessage) : Option SubstackPost :=
  let fromH := jsOrStr (headerValue m.headers "from") ""
  let subject := jsOrStr (headerValue m.headers "subject") "Untitled"
  let dateH := jsOrStr (headerValue m.headers "date") ""
  let auth := parseFromHeader fromH
  let htmlContent := getHtmlContent m
  if htmlContent = "" then none
  else
    match findPostUrl htmlContent with
    | none => none
    | some postUrl =>
      some { messageId := m.id
             author := auth.1
             authorEmail := auth.2
             title := subject
             postUrl := postUrl
             snippet := jsOrStr m.snippet ""
             publishedAt := jsOrStr m.internalDate dateH
             htmlContent := htmlContent }

/-- `generateContentHash` of gmail-ingest.ts: full 64-character hex SHA-256
of `postUrl:title:author`. -/
def generateContentHash (post : SubstackPost) : String :=
  SpecSha.sha256Hex (post.postUrl ++ ":" ++ post.title ++ ":" ++ post.author)

/-- A row of `gmailProcessedMessagesTable`. -/
structure ProcessedRow where
  messageId : String
  userId : String
  gmailConnectionId : String
  contentHash : String
  processedAt : String
  substackAuthor : String
  substackPostUrl : String
  contentId : Option String
deriving DecidableEq, Repr

/-- A row of `userSubscriptionsTable` (fields the ingester writes). -/
structure SubRow where
  userId : String
  creatorId : String
  subscribedAt : String
  isActive : Bool
  notificationsEnabled : Bool
deriving DecidableEq, Repr

/-- The database state the Gmail ingester reads and writes.  `lastSyncedAt`
is the Gmail connection's last-sync column; `nextId` models `nanoid()`. -/
structure GmailState where
  ledger : List ProcessedRow
  creators : List RssRepo.CreatorRow
  contentItems : List RssRepo.ContentRow
  subscriptions : List SubRow
  lastSyncedAt : Option String
  nextId : Nat
deriving DecidableEq, Repr

/-- `creatorId` construction: `substack-` plus the author email with every
character outside `[a-zA-Z0-9]` replaced by `-`. -/
def sanitizeEmail (email : String) : String :=
  String.map (fun c => if c.isAlphanum then c else '-') email

/-- The capture of `postUrl.match(/https?:\/\/([^\/]+)\.substack\.com/)`
when a match starts at this position: the greedy slash-free span before the
last `.substack.com` occurrence inside the slash-free host prefix. -/
def handleAt (cs : List Char) : Option String :=
  match stripHttpPrefix cs with
  | none => none
  | some rest =>
    let host := rest.takeWhile (fun c => c ≠ '/')
    let idxs := (List.range (host.length + 1)).filter
      (fun i => ".substack.com".data.isPrefixOf (host.drop i))
    match idxs.getLast? with
    | some i => if i > 0 then some (String.mk (host.take i)) else none
    | none => none

/-- First match of the handle regex over the post URL. -/
def substackHandleAux : Nat → List Char → Option String
  | 0, _ => none
  | _ + 1, [] => none
  | fuel + 1, c :: rest =>
    match handleAt (c :: rest) with
    | some h => some h
    | none => substackHandleAux fuel rest

def substackHandle (postUrl : String) : Option String :=
  substackHandleAux postUrl.data.length postUrl.data

/-- `upsertCreator` of gmail-ingest.ts. -/
def upsertCreator (now creatorId : String) (post : SubstackPost) (st : GmailState) :
    GmailState :=
  let handle := substackHandle post.postUrl
  let profileUrl :=
    match handle with
    | some h => "https://" ++ h ++ ".substack.com"
    | none => post.postUrl
  match st.creators.find? (fun c => c.creatorId == creatorId) with
  | some _ =>
    { st with creators := st.creators.map (fun c =>
        if c.creatorId == creatorId then
          { c with name := post.author, lastUpdatedAt := now }
        else c) }
  | none =>
    { st with creators := st.creators ++
      [{ creatorId := creatorId, sourceType := "substack", externalId := post.authorEmail,
         name := post.author, handle := handle, bio := none, profileUrl := profileUrl,
         firstSeenAt := now, lastUpdatedAt := now }] }

/-- `createContentItem` of gmail-ingest.ts. -/
def createContentItem (now creatorId : String) (post : SubstackPost) (st : GmailState) :
    String × GmailState :=
  let contentId := "substack-" ++ toString st.nextId
  (contentId,
   { st with nextId := st.nextId + 1
             contentItems := st.contentItems ++
     [{ contentId := contentId, creatorId := creatorId, sourceType := "substack",
        externalId := post.postUrl, title := post.title, description := post.snippet,
        contentUrl := post.postUrl, mediaType := "article",
        publishedAt := post.publishedAt, addedAt := now, updatedAt := none,
        metadataAuthor := none, metadataContentHtml := some post.htmlContent,
        isArchived := false, contentHash := generateContentHash post }] })

/-- `ensureSubscription` of gmail-ingest.ts. -/
def ensureSubscription (userId creatorId now : String) (st : GmailState) : GmailState :=
  match st.subscriptions.find? (fun s => s.userId == userId && s.creatorId == creatorId) with
  | some _ => st
  | none =>
    { st with subscriptions := st.subscriptions ++
      [{ userId := userId, creatorId := creatorId, subscribedAt := now,
         isActive := true, notificationsEnabled := true }] }

/-- The fresh-content path of the `ingestSubstackPosts` loop body: upsert
the creator, insert the content item, write the ledger row referencing the
new content, and ensure the user's subscription. -/
def ingestFresh (userId connId now : String) (st : GmailState) (m : GmailMessage)
    (post : SubstackPost) (contentHash : String) : GmailState :=
  let creatorId := "substack-" ++ sanitizeEmail post.authorEmail
  let st1 := upsertCreator now creatorId post st
  let cc := createContentItem now creatorId post st1
  let st3 := { cc.2 with ledger := cc.2.ledger ++
    [{ messageId := m.id, userId := userId, gmailConnectionId := connId,
       contentHash := contentHash, processedAt := now,
       substackAuthor := post.author, substackPostUrl := post.postUrl,
       contentId := some cc.1 }] }
  ensureSubscription userId creatorId now st3

/-- One iteration of the `ingestSubstackPosts` message loop: skip when the
message id is already in the processed ledger; skip when extraction fails
(note: no ledger row is written in that case); on a content-hash hit write
a ledger row pointing at the existing content and skip; otherwise take the
fresh-content path and count the message as processed. -/
def ingestStep (userId connId now : String) (acc : GmailState × Nat × Nat)
    (m : GmailMessage) : GmailState × Nat × Nat :=
  let st := acc.1
  let processed := acc.2.1
  let skipped := acc.2.2
  if (st.ledger.find? (fun r => r.messageId == m.id)).isSome then
    (st, processed, skipped + 1)
  else
    match parseSubstackPost m with
    | none => (st, processed, skipped + 1)
    | some post =>
      let contentHash := generateContentHash post
      match st.ledger.find? (fun r => r.contentHash == contentHash) with
      | some existing =>
        ({ st with ledger := st.ledger ++
           [{ messageId := m.id, userId := userId, gmailConnectionId := connId,
              contentHash := contentHash, processedAt := now,
              substackAuthor := post.author, substackPostUrl := post.postUrl,
              contentId := existing.contentId }] },
         processed, skipped + 1)
      | none => (ingestFresh userId connId now st m post contentHash, processed + 1, skipped)

/-- `ingestSubstackPosts` of gmail-ingest.ts over an already-fetched message
list: fold the loop, then record the connection's last sync time.  Returns
the final state with the `(processed, skipped)` tally. -/
def ingestSubstackPosts (userId connId : String) (st : GmailState)
    (messages : List GmailMessage) (now : String) : GmailState × Nat × Nat :=
  let r := messages.foldl (ingestStep userId connId now) (st, 0, 0)
  ({ r.1 with lastSyncedAt := some now }, r.2.1, r.2.2)

end GmailIngest

-- ============================================================================
-- FEED DISCOVERY (src/rss/feed-discovery.ts)
-- ============================================================================

namespace Discovery

open JsStr

/-- `FeedDiscoveryResult` of feed-discovery.ts. -/
structure FeedDiscoveryResult where
  feedUrl : String
  feedType : RssRepo.FeedType
  discoveryMethod : RssRepo.DiscoveryMethod
  feedTitle : Option String
  feedDescription : Option String
  siteUrl : String
deriving DecidableEq, Repr

/-- `FeedCheckResult` of feed-discovery.ts.  `checkFeedUrl` is one network
round trip (GET, status check, Content-Type/body classification, metadata
extraction); it is the I/O boundary and is modeled as an environment
function producing this record. -/
structure FeedCheckResult where
  success : Bool
  feedUrl : Option String
  feedType : Option RssRepo.FeedType
  feedTitle : Option String
  feedDescription : Option String
  etag : Option String
  lastModified : Option String
deriving DecidableEq, Repr

/-- One `<link rel="alternate">` tag collected from the site HTML: resolved
absolute href and the (lowercased) `type` attribute. -/
structure LinkTag where
  url : String
  type : String
deriving DecidableEq, Repr

/-- `WELL_KNOWN_PATHS` of feed-discovery.ts, in source order. -/
def WELL_KNOWN_PATHS : List String :=
  ["/feed.xml", "/rss.xml", "/atom.xml", "/feed/", "/index.xml",
   "/feed.json", "/rss/", "/feeds/rss.xml"]

/-- `normalizeSiteUrl`: trim, prepend `https://` when no scheme, strip one
trailing slash.  (Prefix/suffix tests are done on the character list, which
is what `startsWith`/`endsWith` compute.) -/
def normalizeSiteUrl (url : String) : String :=
  let n := JsStr.trimStr url
  let n := if !("http://".data.isPrefixOf n.data) && !("https://".data.isPrefixOf n.data)
           then "https://" ++ n else n
  if "/".data.isSuffixOf n.data then String.mk n.data.dropLast else n

/-- The guard `result.success && result.feedUrl && result.feedType` of the
well-known-path loop (JS truthiness: an empty feedUrl string is falsy). -/
def goodProbe (r : FeedCheckResult) : Bool :=
  r.success &&
  (match r.feedUrl with | some u => u != "" | none => false) &&
  r.feedType.isSome

/-- The well-known-path probe loop of `discoverFeed`: the feed URL of each
path is `new URL(path, normalizedUrl)` (modeled as concatenation — the
normalized site URL is scheme+host without trailing slash and every path
starts with `/`); the first probe passing the guard wins. -/
def probeWellKnown (check : String → FeedCheckResult) (base : String) :
    List String → Option FeedDiscoveryResult
  | [] => none
  | path :: rest =>
    let feedUrl := base ++ path
    let r := check feedUrl
    if goodProbe r then
      some { feedUrl := r.feedUrl.getD ""
             feedType := r.feedType.getD RssRepo.FeedType.rss
             discoveryMethod := RssRepo.DiscoveryMethod.wellKnownPath
             feedTitle := r.feedTitle
             feedDescription := r.feedDescription
             siteUrl := base }
    else probeWellKnown check base rest

/-- The MIME-type classification of a `<link rel="alternate">` `type`
attribute inside `discoverFeedFromHtml`. -/
def classifyLinkType (t : String) : Option RssRepo.FeedType :=
  if includes t "application/rss+xml" || includes t "application/xml" then
    some RssRepo.FeedType.rss
  else if includes t "application/atom+xml" then
    some RssRepo.FeedType.atom
  else if includes t "application/json" || includes t "application/feed+json" then
    some RssRepo.FeedType.jsonFeed
  else none

/-- The candidate loop of `discoverFeedFromHtml`: first link tag whose type
classifies and whose URL verifies via `checkFeedUrl` (only `success` is
consulted here). -/
def scanLinkTags (check : String → FeedCheckResult) :
    List LinkTag → Option FeedDiscoveryResult
  | [] => none
  | link :: rest =>
    match classifyLinkType (toLowerStr link.type) with
    | none => scanLinkTags check rest
    | some ft =>
      let r := check link.url
      if r.success then
        some { feedUrl := link.url
               feedType := ft
               discoveryMethod := RssRepo.DiscoveryMethod.htmlLinkTag
               feedTitle := r.feedTitle
               feedDescription := r.feedDescription
               siteUrl := "" }
      else scanLinkTags check rest

/-- `discoverFeedFromHtml`, with the site-HTML fetch and cheerio link-tag
extraction modeled as an environment `htmlLinks` (a `none` result is a
fetch/parse error, caught and treated as no discovery). -/
def discoverFeedFromHtml (check : String → FeedCheckResult)
    (htmlLinks : String → Option (List LinkTag)) (siteUrl : String) :
    Option FeedDiscoveryResult :=
  match htmlLinks siteUrl with
  | none => none
  | some links => scanLinkTags check links

/-- `discoverFeed` of feed-discovery.ts: normalize, probe well-known paths
in order, fall back to HTML link tags, else fail instructing manual entry. -/
def discoverFeed (check : String → FeedCheckResult)
    (htmlLinks : String → Option (List LinkTag)) (siteUrl : String) :
    Except String FeedDiscoveryResult :=
  let normalizedUrl := normalizeSiteUrl siteUrl
  match probeWellKnown check normalizedUrl WELL_KNOWN_PATHS with
  | some res => Except.ok res
  | none =>
    match discoverFeedFromHtml check htmlLinks normalizedUrl with
    | some res => Except.ok { res with siteUrl := normalizedUrl }
    | none =>
      Except.error ("No feed found for " ++ siteUrl ++ ". Please provide the feed URL manually.")

end Discovery

-- ============================================================================
-- GENERAL HELPER LEMMAS
-- ============================================================================

theorem find?_append_some {α} {p : α → Bool} {l₁ : List α} {a : α} (l₂ : List α)
    (h : l₁.find? p = some a) : (l₁ ++ l₂).find? p = some a := by
  rw [List.find?_append, h]; rfl

theorem find?_isSome_append {α} {p : α → Bool} {l₁ : List α} (l₂ : List α)
    (h : (l₁.find? p).isSome = true) : ((l₁ ++ l₂).find? p).isSome = true := by
  rcases ho : l₁.find? p with _ | a
  · rw [ho] at h; simp at h
  · rw [find?_append_some l₂ ho]; rfl

theorem foldl_inv {α β} {P : β → Prop} (f : β → α → β)
    (hstep : ∀ b a, P b → P (f b a)) :
    ∀ (l : List α) (b : β), P b → P (l.foldl f b) := by
  intro l
  induction l with
  | nil => intro b hb; exact hb
  | cons x xs ih => intro b hb; exact ih _ (hstep b x hb)

-- ============================================================================
-- SHA-256 STRUCTURAL FACTS
-- ============================================================================

namespace SpecSha

/-- All eight digest words are 32-bit. -/
def Bounded (d : Digest) : Prop :=
  d.a < M32 ∧ d.b < M32 ∧ d.c < M32 ∧ d.d < M32 ∧
  d.e < M32 ∧ d.f < M32 ∧ d.g < M32 ∧ d.h < M32

theorem bounded_compressBlock (st : Digest) (block : List Nat) :
    Bounded (compressBlock st block) := by
  refine ⟨?_, ?_, ?_, ?_, ?_, ?_, ?_, ?_⟩ <;>
    exact Nat.mod_lt _ (by decide)

theorem bounded_H0 : Bounded H0 := by
  refine ⟨?_, ?_, ?_, ?_, ?_, ?_, ?_, ?_⟩ <;> decide

theorem bounded_sha256Digest (bytes : List Nat) : Bounded (sha256Digest bytes) := by
  unfold sha256Digest
  exact foldl_inv compressBlock (fun b a _ => bounded_compressBlock b a) _ H0 bounded_H0

theorem sha256Hex_length (s : String) : (sha256Hex s).length = 64 := rfl

/-- The first 16 hex characters of a digest are exactly the hex of its first
two words. -/
theorem digestHex_take16 (d : Digest) :
    JsStr.jsSubstring (digestHex d) 0 16 = String.mk (word32Hex d.a ++ word32Hex d.b) := rfl

end SpecSha

-- ============================================================================
-- C9: feed-hash determinism and field sensitivity
-- ============================================================================

namespace FeedParser

/-- The digest underlying `generateContentHash`. -/
def digestOf (u t c : String) : SpecSha.Digest :=
  SpecSha.sha256Digest (SpecSha.strBytes (hashData u t c))

theorem generateContentHash_eq_words (u t c : String) :
    generateContentHash u t c =
      String.mk (SpecSha.word32Hex (digestOf u t c).a ++ SpecSha.word32Hex (digestOf u t c).b) :=
  rfl

/-- The truncated hash factors through a finite type (the first two digest
words), which is what makes truncated-hash collisions unavoidable. -/
def truncKey (t c u : String) : Fin SpecSha.M32 × Fin SpecSha.M32 :=
  (⟨(digestOf u t c).a, (SpecSha.bounded_sha256Digest _).1⟩,
   ⟨(digestOf u t c).b, (SpecSha.bounded_sha256Digest _).2.1⟩)

end FeedParser

/-- C9 (counterexample): the claim "for every pair of inputs that differ in
exactly one of url, title, or content, the resulting hashes differ" is false:
`generateContentHash` truncates the digest to 16 hex characters, so it maps
the infinitely many url values (with title and content fixed) into a finite
set, and two distinct urls with identical hashes exist by pigeonhole. -/
theorem feedHash_collision_exists :
    ∃ u₁ u₂ : String, u₁ ≠ u₂ ∧
      FeedParser.generateContentHash u₁ "" "" = FeedParser.generateContentHash u₂ "" "" := by
  obtain ⟨u₁, u₂, hne, heq⟩ :=
    Finite.exists_ne_map_eq_of_infinite (FeedParser.truncKey "" "")
  refine ⟨u₁, u₂, hne, ?_⟩
  have ha : (FeedParser.digestOf u₁ "" "").a = (FeedParser.digestOf u₂ "" "").a :=
    congrArg (fun p => p.1.val) heq
  have hb : (FeedParser.digestOf u₁ "" "").b = (FeedParser.digestOf u₂ "" "").b :=
    congrArg (fun p => p.2.val) heq
  rw [FeedParser.generateContentHash_eq_words, FeedParser.generateContentHash_eq_words, ha, hb]

/-- C9 (amended): the feed content hash is deterministic, and changing any
single one of url, title, or content changes the hashed input string
`url|title|content` (the 16-hex-character truncated digest itself can
collide in principle, per the counterexample). -/
theorem feedHash_deterministic_and_input_sensitive :
    (∀ u t c, FeedParser.generateContentHash u t c = FeedParser.generateContentHash u t c) ∧
    (∀ u u' t c, u ≠ u' → FeedParser.hashData u t c ≠ FeedParser.hashData u' t c) ∧
    (∀ u t t' c, t ≠ t' → FeedParser.hashData u t c ≠ FeedParser.hashData u t' c) ∧
    (∀ u t c c', c ≠ c' → FeedParser.hashData u t c ≠ FeedParser.hashData u t c') := by
  refine ⟨fun u t c => rfl, ?_, ?_, ?_⟩
  · intro u u' t c hne h
    apply hne
    have hd := congrArg String.data h
    simp only [FeedParser.hashData, String.data_append, List.append_assoc] at hd
    exact String.ext (List.append_cancel_right hd)
  · intro u t t' c hne h
    apply hne
    have hd := congrArg String.data h
    simp only [FeedParser.hashData, String.data_append, List.append_assoc] at hd
    have hd2 := List.append_cancel_left hd
    have hd3 := List.append_cancel_left hd2
    exact String.ext (List.append_cancel_right hd3)
  · intro u t c c' hne h
    apply hne
    have hd := congrArg String.data h
    simp only [FeedParser.hashData, String.data_append, List.append_assoc] at hd
    have hd2 := List.append_cancel_left hd
    have hd3 := List.append_cancel_left hd2
    have hd4 := List.append_cancel_left hd3
    exact String.ext (List.append_cancel_left hd4)

/-- C9 witness: the sensitivity part applied at concrete inputs. -/
theorem feedHash_sensitivity_witness :
    (("a" : String) ≠ "b") ∧ FeedParser.hashData "a" "t" "c" ≠ FeedParser.hashData "b" "t" "c" :=
  ⟨by decide, feedHash_deterministic_and_input_sensitive.2.1 "a" "b" "t" "c" (by decide)⟩

-- ============================================================================
-- C4: feed-item content hash composition
-- ============================================================================

/-- A JSON-feed item carrying only a summary: no `content_html`, no
`content_text`. -/
def c4Item : FeedParser.JsonItem :=
  { id := none, url := some "u", title := some "t", content_html := none,
    content_text := none, summary := some "s", date_published := none,
    authorName := none }

def c4Doc : FeedParser.JsonFeedDoc :=
  { title := none, description := none, home_page_url := none, items := [c4Item] }

/-- C4 (counterexample): for a JSON-feed item whose full content is absent
but whose summary is "s", the attached hash is SHA-256 of `u|t|` (empty
third field), not SHA-256 of `u|t|s` as the claim's summary fallback would
require — the JSON-feed `summary` field never enters the hash. -/
theorem jsonFeed_summary_not_hashed :
    ((FeedParser.parseJsonFeed "now" c4Doc).items.map (fun i => i.hash)) =
      [FeedParser.generateContentHash "u" "t" ""] ∧
    FeedParser.generateContentHash "u" "t" "" ≠ FeedParser.generateContentHash "u" "t" "s" := by
  constructor
  · rfl
  · set_option maxRecDepth 100000 in decide

/-- C4 (amended): the attached hash is the 16-hex-character truncation of
SHA-256 over `url|title|content`, where the content component is
`content:encoded` falling back to the parser's `content` field (the RSS
`<description>` / Atom `<content>`) for RSS/Atom, and `content_html`
falling back to `content_text` for JSON-feed — with the empty string, not
the summary, when all of these are absent. -/
theorem feed_hash_composition :
    (∀ now item, (FeedParser.parseRawItem now item).hash =
       FeedParser.generateContentHash
         (JsStr.jsOrStr item.link (JsStr.jsOrStr (JsStr.jsOr item.guid item.link) ""))
         (JsStr.jsOrStr item.title "")
         (JsStr.jsOrStr (JsStr.jsOr item.contentEncoded item.content) "")) ∧
    (∀ now item, (FeedParser.parseJsonItem now item).hash =
       FeedParser.generateContentHash
         (JsStr.jsOrStr (JsStr.jsOr item.url item.id) "undefined")
         (JsStr.jsOrStr item.title "")
         (JsStr.jsOrStr (JsStr.jsOr (JsStr.jsOr item.content_html none) item.content_text) "")) ∧
    (∀ u t c, (FeedParser.generateContentHash u t c).length = 16) ∧
    (∀ u t c, FeedParser.generateContentHash u t c =
       JsStr.jsSubstring (SpecSha.sha256Hex (u ++ "|" ++ t ++ "|" ++ c)) 0 16) := by
  refine ⟨fun now item => rfl, fun now item => rfl, ?_, fun u t c => rfl⟩
  intro u t c
  rw [FeedParser.generateContentHash_eq_words]
  rfl

-- ============================================================================
-- GMAIL INGESTION: structural lemmas about one loop iteration
-- ============================================================================

namespace GmailIngest

theorem upsertCreator_ledger (now cid : String) (post : SubstackPost) (st : GmailState) :
    (upsertCreator now cid post st).ledger = st.ledger := by
  unfold upsertCreator
  split <;> rfl

theorem createContentItem_ledger (now cid : String) (post : SubstackPost) (st : GmailState) :
    (createContentItem now cid post st).2.ledger = st.ledger := rfl

theorem ensureSubscription_ledger (u cid now : String) (st : GmailState) :
    (ensureSubscription u cid now st).ledger = st.ledger := by
  unfold ensureSubscription
  split <;> rfl

/-- A message whose id is already in the ledger is skipped with no state
change. -/
theorem ingestStep_skip (u c n : String) (acc : GmailState × Nat × Nat) (m : GmailMessage)
    (h : (acc.1.ledger.find? (fun r => r.messageId == m.id)).isSome = true) :
    ingestStep u c n acc m = (acc.1, acc.2.1, acc.2.2 + 1) := by
  unfold ingestStep
  rw [if_pos h]

/-- A fresh message that does not extract is skipped with no state change
(in particular, no ledger row is written). -/
theorem ingestStep_unparsed (u c n : String) (acc : GmailState × Nat × Nat) (m : GmailMessage)
    (h1 : (acc.1.ledger.find? (fun r => r.messageId == m.id)).isSome = false)
    (h2 : parseSubstackPost m = none) :
    ingestStep u c n acc m = (acc.1, acc.2.1, acc.2.2 + 1) := by
  unfold ingestStep
  rw [if_neg (by simp [h1]), h2]

/-- A fresh message that extracts but whose content hash is already in the
ledger: one ledger row referencing the existing content is appended and the
message is counted as skipped. -/
theorem ingestStep_dup (u c n : String) (acc : GmailState × Nat × Nat) (m : GmailMessage)
    (post : SubstackPost) (existing : ProcessedRow)
    (h1 : (acc.1.ledger.find? (fun r => r.messageId == m.id)).isSome = false)
    (h2 : parseSubstackPost m = some post)
    (hd : acc.1.ledger.find? (fun r => r.contentHash == generateContentHash post) =
            some existing) :
    ingestStep u c n acc m =
      ({ acc.1 with ledger := acc.1.ledger ++
          [{ messageId := m.id, userId := u, gmailConnectionId := c,
             contentHash := generateContentHash post, processedAt := n,
             substackAuthor := post.author, substackPostUrl := post.postUrl,
             contentId := existing.contentId }] },
       acc.2.1, acc.2.2 + 1) := by
  unfold ingestStep
  rw [if_neg (by simp [h1]), h2]
  dsimp only
  rw [hd]

/-- The ledger after the fresh-content path: exactly one appended row with
the message id and the mailbox hash. -/
theorem ingestFresh_ledger (u c n : String) (st : GmailState) (m : GmailMessage)
    (post : SubstackPost) (contentHash : String) :
    ∃ cid : String, (ingestFresh u c n st m post contentHash).ledger = st.ledger ++
      [{ messageId := m.id, userId := u, gmailConnectionId := c,
         contentHash := contentHash, processedAt := n,
         substackAuthor := post.author, substackPostUrl := post.postUrl,
         contentId := some cid }] := by
  refine ⟨(createContentItem n ("substack-" ++ sanitizeEmail post.authorEmail) post
            (upsertCreator n ("substack-" ++ sanitizeEmail post.authorEmail) post st)).1, ?_⟩
  unfold ingestFresh
  rw [ensureSubscription_ledger]
  show (createContentItem n _ post (upsertCreator n _ post st)).2.ledger ++ _ = _
  rw [createContentItem_ledger, upsertCreator_ledger]

/-- A fresh message that extracts fresh content takes the fresh-content
path and is counted as processed. -/
theorem ingestStep_new (u c n : String) (acc : GmailState × Nat × Nat) (m : GmailMessage)
    (post : SubstackPost)
    (h1 : (acc.1.ledger.find? (fun r => r.messageId == m.id)).isSome = false)
    (h2 : parseSubstackPost m = some post)
    (hd : acc.1.ledger.find? (fun r => r.contentHash == generateContentHash post) = none) :
    ingestStep u c n acc m =
      (ingestFresh u c n acc.1 m post (generateContentHash post), acc.2.1 + 1, acc.2.2) := by
  unfold ingestStep
  rw [if_neg (by simp [h1]), h2]
  dsimp only
  rw [hd]

/-- A fresh message that extracts appends exactly one ledger row carrying
its id and the mailbox content hash (whether or not it is a duplicate by
hash), and ticks exactly one of the two counters. -/
theorem ingestStep_parsed (u c n : String) (acc : GmailState × Nat × Nat) (m : GmailMessage)
    (post : SubstackPost)
    (h1 : (acc.1.ledger.find? (fun r => r.messageId == m.id)).isSome = false)
    (h2 : parseSubstackPost m = some post) :
    ∃ row : ProcessedRow, row.messageId = m.id ∧
      row.contentHash = generateContentHash post ∧
      (ingestStep u c n acc m).1.ledger = acc.1.ledger ++ [row] ∧
      (ingestStep u c n acc m).2.1 + (ingestStep u c n acc m).2.2 = acc.2.1 + acc.2.2 + 1 := by
  cases hd : acc.1.ledger.find? (fun r => r.contentHash == generateContentHash post) with
  | some existing =>
    rw [ingestStep_dup u c n acc m post existing h1 h2 hd]
    refine ⟨_, rfl, rfl, rfl, ?_⟩
    show acc.2.1 + (acc.2.2 + 1) = acc.2.1 + acc.2.2 + 1
    omega
  | none =>
    obtain ⟨cid, hledger⟩ :=
      ingestFresh_ledger u c n acc.1 m post (generateContentHash post)
    rw [ingestStep_new u c n acc m post h1 h2 hd]
    refine ⟨_, rfl, rfl, hledger, ?_⟩
    show acc.2.1 + 1 + acc.2.2 = acc.2.1 + acc.2.2 + 1
    omega

/-- Every iteration ticks exactly one of the two counters. -/
theorem ingestStep_counts (u c n : String) (acc : GmailState × Nat × Nat) (m : GmailMessage) :
    (ingestStep u c n acc m).2.1 + (ingestStep u c n acc m).2.2 = acc.2.1 + acc.2.2 + 1 := by
  by_cases h : (acc.1.ledger.find? (fun r => r.messageId == m.id)).isSome = true
  · rw [ingestStep_skip u c n acc m h]
    show acc.2.1 + (acc.2.2 + 1) = acc.2.1 + acc.2.2 + 1
    omega
  · have h1 : (acc.1.ledger.find? (fun r => r.messageId == m.id)).isSome = false := by
      simpa using h
    cases h2 : parseSubstackPost m with
    | none =>
      rw [ingestStep_unparsed u c n acc m h1 h2]
      show acc.2.1 + (acc.2.2 + 1) = acc.2.1 + acc.2.2 + 1
      omega
    | some post =>
      obtain ⟨row, -, -, -, hc⟩ := ingestStep_parsed u c n acc m post h1 h2
      exact hc

/-- The ledger only ever grows. -/
theorem ingestStep_ledger_extends (u c n : String) (acc : GmailState × Nat × Nat)
    (m : GmailMessage) :
    ∃ ext, (ingestStep u c n acc m).1.ledger = acc.1.ledger ++ ext := by
  by_cases h : (acc.1.ledger.find? (fun r => r.messageId == m.id)).isSome = true
  · rw [ingestStep_skip u c n acc m h]
    exact ⟨[], (List.append_nil _).symm⟩
  · have h1 : (acc.1.ledger.find? (fun r => r.messageId == m.id)).isSome = false := by
      simpa using h
    cases h2 : parseSubstackPost m with
    | none =>
      rw [ingestStep_unparsed u c n acc m h1 h2]
      exact ⟨[], (List.append_nil _).symm⟩
    | some post =>
      obtain ⟨row, -, -, hl, -⟩ := ingestStep_parsed u c n acc m post h1 h2
      exact ⟨[row], hl⟩

end GmailIngest

namespace GmailIngest

/-- Counter partition over the whole message fold. -/
theorem ingest_fold_counts (u c n : String) :
    ∀ (msgs : List GmailMessage) (acc : GmailState × Nat × Nat),
      (msgs.foldl (ingestStep u c n) acc).2.1 + (msgs.foldl (ingestStep u c n) acc).2.2
        = acc.2.1 + acc.2.2 + msgs.length := by
  intro msgs
  induction msgs with
  | nil => intro acc; simp
  | cons m rest ih =>
    intro acc
    rw [List.foldl_cons, ih (ingestStep u c n acc m), ingestStep_counts u c n acc m]
    simp only [List.length_cons]
    omega

/-- Ledger monotonicity over the whole message fold. -/
theorem ingest_fold_ledger_extends (u c n : String) :
    ∀ (msgs : List GmailMessage) (acc : GmailState × Nat × Nat),
      ∃ ext, (msgs.foldl (ingestStep u c n) acc).1.ledger = acc.1.ledger ++ ext := by
  intro msgs
  induction msgs with
  | nil => intro acc; exact ⟨[], (List.append_nil _).symm⟩
  | cons m rest ih =>
    intro acc
    obtain ⟨e1, he1⟩ := ingestStep_ledger_extends u c n acc m
    obtain ⟨e2, he2⟩ := ih (ingestStep u c n acc m)
    refine ⟨e1 ++ e2, ?_⟩
    rw [List.foldl_cons, he2, he1, List.append_assoc]

/-- After one run, every message of the batch that extracts has its id in
the ledger. -/
theorem ingest_fold_marks (u c n : String) :
    ∀ (msgs : List GmailMessage) (acc : GmailState × Nat × Nat) (m : GmailMessage)
      (post : SubstackPost), m ∈ msgs → parseSubstackPost m = some post →
      (((msgs.foldl (ingestStep u c n) acc).1.ledger.find?
          (fun r => r.messageId == m.id)).isSome = true) := by
  intro msgs
  induction msgs with
  | nil => intro acc m post hm; cases hm
  | cons q rest ih =>
    intro acc m post hm hp
    rw [List.foldl_cons]
    rcases List.mem_cons.mp hm with rfl | hmem
    · -- the message's own step marks it; the rest of the fold keeps the row
      have hmarked : (((ingestStep u c n acc m).1.ledger.find?
          (fun r => r.messageId == m.id)).isSome = true) := by
        by_cases hpr : (acc.1.ledger.find? (fun r => r.messageId == m.id)).isSome = true
        · rw [ingestStep_skip u c n acc m hpr]; exact hpr
        · have h1 : (acc.1.ledger.find? (fun r => r.messageId == m.id)).isSome = false := by
            simpa using hpr
          obtain ⟨row, hid, -, hl, -⟩ := ingestStep_parsed u c n acc m post h1 hp
          have hnone : acc.1.ledger.find? (fun r => r.messageId == m.id) = none :=
            Option.not_isSome_iff_eq_none.mp (by simp [h1])
          rw [hl, List.find?_append, hnone]
          simp [hid]
      obtain ⟨ext, hext⟩ := ingest_fold_ledger_extends u c n rest (ingestStep u c n acc m)
      rw [hext]
      exact find?_isSome_append ext hmarked
    · exact ih (ingestStep u c n acc q) m post hmem hp

end GmailIngest

-- ============================================================================
-- C10: the tally partitions the fetched messages
-- ============================================================================

/-- C10: in one run of `ingestSubstackPosts`, every fetched message
increments exactly one of the two counters, so
`processed + skipped = number of messages`. -/
theorem ingest_counts_partition (userId connId : String) (st : GmailIngest.GmailState)
    (msgs : List GmailIngest.GmailMessage) (now : String) :
    (GmailIngest.ingestSubstackPosts userId connId st msgs now).2.1 +
      (GmailIngest.ingestSubstackPosts userId connId st msgs now).2.2 = msgs.length := by
  show (msgs.foldl (GmailIngest.ingestStep userId connId now) (st, 0, 0)).2.1 +
      (msgs.foldl (GmailIngest.ingestStep userId connId now) (st, 0, 0)).2.2 = msgs.length
  rw [GmailIngest.ingest_fold_counts userId connId now msgs (st, 0, 0)]
  show 0 + 0 + msgs.length = msgs.length
  omega

-- ============================================================================
-- C5: mailbox content hash and the scope of mailbox dedup lookups
-- ============================================================================

/-- C5: the mailbox content hash is the full 64-hex-character SHA-256 of
`postUrl:title:author`, and the mailbox dedup lookup — which scans only the
`gmailProcessedMessagesTable` ledger — only ever compares hashes of this
mailbox form: every ledger row reachable by ingestion runs carries a hash
produced by the mailbox `generateContentHash`, never a feed-item hash. -/
theorem mailbox_hash_spec :
    (∀ post : GmailIngest.SubstackPost, GmailIngest.generateContentHash post =
        SpecSha.sha256Hex (post.postUrl ++ ":" ++ post.title ++ ":" ++ post.author)) ∧
    (∀ post : GmailIngest.SubstackPost, (GmailIngest.generateContentHash post).length = 64) ∧
    (∀ userId connId st msgs now,
      (∀ r ∈ st.ledger, ∃ p, r.contentHash = GmailIngest.generateContentHash p) →
      ∀ r ∈ (GmailIngest.ingestSubstackPosts userId connId st msgs now).1.ledger,
        ∃ p, r.contentHash = GmailIngest.generateContentHash p) := by
  refine ⟨fun post => rfl, fun post => rfl, ?_⟩
  intro userId connId st msgs now h r hr
  have hled : (GmailIngest.ingestSubstackPosts userId connId st msgs now).1.ledger
      = (msgs.foldl (GmailIngest.ingestStep userId connId now) (st, 0, 0)).1.ledger := rfl
  rw [hled] at hr
  refine foldl_inv (P := fun acc => ∀ x ∈ acc.1.ledger,
      ∃ p, x.contentHash = GmailIngest.generateContentHash p)
    (GmailIngest.ingestStep userId connId now) ?_ msgs (st, 0, 0) h r hr
  intro acc m hacc x hx
  by_cases hpr : (acc.1.ledger.find? (fun y => y.messageId == m.id)).isSome = true
  · rw [GmailIngest.ingestStep_skip userId connId now acc m hpr] at hx
    exact hacc x hx
  · have h1 : (acc.1.ledger.find? (fun y => y.messageId == m.id)).isSome = false := by
      simpa using hpr
    cases h2 : GmailIngest.parseSubstackPost m with
    | none =>
      rw [GmailIngest.ingestStep_unparsed userId connId now acc m h1 h2] at hx
      exact hacc x hx
    | some post =>
      obtain ⟨row, -, hhash, hl, -⟩ :=
        GmailIngest.ingestStep_parsed userId connId now acc m post h1 h2
      rw [hl] at hx
      rcases List.mem_append.mp hx with hin | hin
      · exact hacc x hin
      · have hx' : x = row := by simpa using hin
        exact ⟨post, hx' ▸ hhash⟩

def c5EmptyState : GmailIngest.GmailState :=
  { ledger := [], creators := [], contentItems := [], subscriptions := [],
    lastSyncedAt := none, nextId := 0 }

/-- C5 witness: the ledger invariant applied from the empty database. -/
theorem mailbox_hash_spec_witness :
    (∀ r ∈ c5EmptyState.ledger, ∃ p, r.contentHash = GmailIngest.generateContentHash p) ∧
    (∀ r ∈ (GmailIngest.ingestSubstackPosts "u1" "g1" c5EmptyState [] "t1").1.ledger,
      ∃ p, r.contentHash = GmailIngest.generateContentHash p) :=
  ⟨by simp [c5EmptyState], mailbox_hash_spec.2.2 "u1" "g1" c5EmptyState [] "t1"
    (by simp [c5EmptyState])⟩

-- ============================================================================
-- GMAIL INGESTION: the second identical run is a no-op
-- ============================================================================

namespace GmailIngest

/-- When every message of the batch is either already in the ledger or not
extractable, the whole fold changes nothing and skips everything. -/
theorem ingest_fold_noop (u c n : String) :
    ∀ (msgs : List GmailMessage) (st : GmailState) (p s : Nat),
      (∀ m ∈ msgs, ((st.ledger.find? (fun r => r.messageId == m.id)).isSome = true) ∨
        parseSubstackPost m = none) →
      msgs.foldl (ingestStep u c n) (st, p, s) = (st, p, s + msgs.length) := by
  intro msgs
  induction msgs with
  | nil => intro st p s hall; simp
  | cons q rest ih =>
    intro st p s hall
    rw [List.foldl_cons]
    have hstep : ingestStep u c n (st, p, s) q = (st, p, s + 1) := by
      rcases hall q (List.mem_cons_self q rest) with hin | hnp
      · exact ingestStep_skip u c n (st, p, s) q hin
      · by_cases hpr : ((st, p, s).1.ledger.find? (fun r => r.messageId == q.id)).isSome = true
        · exact ingestStep_skip u c n (st, p, s) q hpr
        · exact ingestStep_unparsed u c n (st, p, s) q (by simpa using hpr) hnp
    rw [hstep, ih st p (s + 1) (fun m hm => hall m (List.mem_cons_of_mem q hm))]
    have hlen : s + 1 + rest.length = s + (q :: rest).length := by
      simp [List.length_cons]; omega
    rw [hlen]

end GmailIngest

-- ============================================================================
-- C3: when is a ProcessedMessage row written
-- ============================================================================

/-- C3 (amended): for a message not yet in the ledger, one ingestion run
writes exactly one ProcessedMessage row for it when extraction succeeds
(also when it is a duplicate by content hash), and NO row when extraction
returns null — unextractable messages are re-evaluated on later runs. -/
theorem processedMessage_row_iff_extractable (userId connId : String)
    (st : GmailIngest.GmailState) (m : GmailIngest.GmailMessage) (now : String)
    (h : st.ledger.find? (fun r => r.messageId == m.id) = none) :
    ((GmailIngest.ingestSubstackPosts userId connId st [m] now).1.ledger.filter
        (fun r => r.messageId == m.id)).length
      = (if (GmailIngest.parseSubstackPost m).isSome then 1 else 0) := by
  have h1 : (st.ledger.find? (fun r => r.messageId == m.id)).isSome = false := by
    rw [h]; rfl
  have hfilter : st.ledger.filter (fun r => r.messageId == m.id) = [] :=
    List.filter_eq_nil_iff.mpr (List.find?_eq_none.mp h)
  have hled : (GmailIngest.ingestSubstackPosts userId connId st [m] now).1.ledger
      = (GmailIngest.ingestStep userId connId now (st, 0, 0) m).1.ledger := rfl
  rw [hled]
  cases h2 : GmailIngest.parseSubstackPost m with
  | none =>
    rw [GmailIngest.ingestStep_unparsed userId connId now (st, 0, 0) m h1 h2]
    simp [hfilter]
  | some post =>
    obtain ⟨row, hid, -, hl, -⟩ :=
      GmailIngest.ingestStep_parsed userId connId now (st, 0, 0) m post h1 h2
    rw [hl, List.filter_append]
    show ((st.ledger.filter _) ++ _).length = _
    rw [hfilter]
    simp [hid]

def c3Empty : GmailIngest.GmailState :=
  { ledger := [], creators := [], contentItems := [], subscriptions := [],
    lastSyncedAt := none, nextId := 0 }

def c3Msg : GmailIngest.GmailMessage :=
  { id := "m1", threadId := "t1",
    headers := [{ name := "From", value := "Jane Roe <jane@pub.substack.com>" },
                { name := "Subject", value := "Post T" },
                { name := "Date", value := "Wed, 01 Jan 2024" }],
    parts := [{ mimeType := "text/html",
                data := some "<a href=\"https://pub.substack.com/p/hello?x=1\">read</a>" }],
    body := none, internalDate := some "1704067200000", snippet := some "snip" }

/-- C3 witness: a fresh, extractable newsletter message from the empty
database gets exactly one ledger row. -/
theorem processedMessage_row_witness :
    (c3Empty.ledger.find? (fun r => r.messageId == c3Msg.id) = none) ∧
    ((GmailIngest.parseSubstackPost c3Msg).isSome = true) ∧
    ((GmailIngest.ingestSubstackPosts "u1" "g1" c3Empty [c3Msg] "t1").1.ledger.filter
        (fun r => r.messageId == c3Msg.id)).length
      = (if (GmailIngest.parseSubstackPost c3Msg).isSome then 1 else 0) :=
  ⟨rfl, by decide,
   processedMessage_row_iff_extractable "u1" "g1" c3Empty c3Msg "t1" rfl⟩

def c3NoHtmlState : GmailIngest.GmailState :=
  { ledger := [], creators := [], contentItems := [], subscriptions := [],
    lastSyncedAt := none, nextId := 0 }

def c3NoHtmlMsg : GmailIngest.GmailMessage :=
  { id := "m2", threadId := "t2", headers := [], parts := [], body := none,
    internalDate := none, snippet := none }

/-- C3 (counterexample): the claim "a row is written even when the message
is not extractable" is false — ingesting one message with no HTML body
(extraction returns null) leaves the ProcessedMessage ledger empty, not
with one row per inbox message. -/
theorem unextractable_message_no_ledger_row :
    (GmailIngest.parseSubstackPost c3NoHtmlMsg = none) ∧
    ((GmailIngest.ingestSubstackPosts "u1" "g1" c3NoHtmlState [c3NoHtmlMsg] "t1").1.ledger.length
      = 0) :=
  ⟨rfl, rfl⟩

-- ============================================================================
-- RSS UPSERT: structural lemmas about one loop iteration
-- ============================================================================

namespace RssRepo

/-- A post whose hash is already stored is skipped with no state change:
the lookup is by content hash, so the "edited" comparison
`existingPost.contentHash !== post.hash` can never be true. -/
theorem upsertStep_found (now cid : String) (st : RssState) (cnt : Nat)
    (post : FeedParser.ParsedFeedItem) (r : ContentRow)
    (h : st.contentItems.find? (fun x => x.sourceType == "rss" && x.contentHash == post.hash)
          = some r) :
    upsertStep now cid (st, cnt) post = (st, cnt) := by
  have hp := List.find?_some h
  have hh : r.contentHash = post.hash := by
    have h2 : (r.contentHash == post.hash) = true := (Bool.and_eq_true _ _ |>.mp hp).2
    exact eq_of_beq h2
  unfold upsertStep
  dsimp only
  rw [h]
  dsimp only
  rw [if_neg (by simp [hh])]

/-- A post whose hash is not stored is inserted and counted. -/
theorem upsertStep_notfound (now cid : String) (st : RssState) (cnt : Nat)
    (post : FeedParser.ParsedFeedItem)
    (h : st.contentItems.find? (fun x => x.sourceType == "rss" && x.contentHash == post.hash)
          = none) :
    upsertStep now cid (st, cnt) post =
      ({ st with nextId := st.nextId + 1
                 contentItems := st.contentItems ++
         [{ contentId := "c" ++ toString st.nextId, creatorId := cid, sourceType := "rss",
            externalId := JsStr.jsOrStr post.guid post.url, title := post.title,
            description := FeedParser.truncateText (JsStr.jsOrStr post.description "") 500,
            contentUrl := post.url, mediaType := "article",
            publishedAt := post.publishedAt, addedAt := now, updatedAt := none,
            metadataAuthor := post.author, metadataContentHtml := post.contentHtml,
            isArchived := false, contentHash := post.hash }] }, cnt + 1) := by
  unfold upsertStep
  dsimp only
  rw [h]

/-- Whether a given rss hash is present in the content table. -/
def rssHashPresent (st : RssState) (hsh : String) : Prop :=
  (st.contentItems.find? (fun x => x.sourceType == "rss" && x.contentHash == hsh)).isSome = true

theorem upsertStep_preserves_present (now cid : String) (acc : RssState × Nat)
    (post : FeedParser.ParsedFeedItem) (hsh : String)
    (h : rssHashPresent acc.1 hsh) :
    rssHashPresent (upsertStep now cid acc post).1 hsh := by
  obtain ⟨st, cnt⟩ := acc
  cases hf : st.contentItems.find? (fun x => x.sourceType == "rss" && x.contentHash == post.hash) with
  | some r => rw [upsertStep_found now cid st cnt post r hf]; exact h
  | none =>
    rw [upsertStep_notfound now cid st cnt post hf]
    exact find?_isSome_append _ h

theorem upsertStep_ensures_present (now cid : String) (st : RssState) (cnt : Nat)
    (post : FeedParser.ParsedFeedItem) :
    rssHashPresent (upsertStep now cid (st, cnt) post).1 post.hash := by
  cases hf : st.contentItems.find? (fun x => x.sourceType == "rss" && x.contentHash == post.hash) with
  | some r =>
    rw [upsertStep_found now cid st cnt post r hf]
    unfold rssHashPresent
    rw [hf]
    rfl
  | none =>
    rw [upsertStep_notfound now cid st cnt post hf]
    unfold rssHashPresent
    rw [List.find?_append, hf]
    simp

/-- Presence survives the whole posts fold. -/
theorem upsertPosts_fold_preserves (now cid : String) (posts : List FeedParser.ParsedFeedItem)
    (acc : RssState × Nat) (hsh : String) (h : rssHashPresent acc.1 hsh) :
    rssHashPresent ((posts.foldl (upsertStep now cid) acc).1) hsh :=
  foldl_inv (P := fun a => rssHashPresent a.1 hsh) (upsertStep now cid)
    (fun b a hb => upsertStep_preserves_present now cid b a hsh hb) posts acc h

/-- After one run, every post of the payload has its hash stored. -/
theorem upsertPosts_all_present (now cid : String) :
    ∀ (posts : List FeedParser.ParsedFeedItem) (st : RssState) (cnt : Nat)
      (p : FeedParser.ParsedFeedItem), p ∈ posts →
      rssHashPresent ((posts.foldl (upsertStep now cid) (st, cnt)).1) p.hash := by
  intro posts
  induction posts with
  | nil => intro st cnt p hp; cases hp
  | cons q rest ih =>
    intro st cnt p hp
    rw [List.foldl_cons]
    rcases List.mem_cons.mp hp with rfl | hmem
    · exact upsertPosts_fold_preserves now cid rest _ p.hash
        (upsertStep_ensures_present now cid st cnt p)
    · exact ih (upsertStep now cid (st, cnt) q).1 (upsertStep now cid (st, cnt) q).2 p hmem

/-- When every post's hash is already stored, the whole fold is a no-op. -/
theorem upsertPosts_fold_noop (now cid : String) :
    ∀ (posts : List FeedParser.ParsedFeedItem) (st : RssState) (cnt : Nat),
      (∀ p ∈ posts, rssHashPresent st p.hash) →
      posts.foldl (upsertStep now cid) (st, cnt) = (st, cnt) := by
  intro posts
  induction posts with
  | nil => intro st cnt hall; rfl
  | cons q rest ih =>
    intro st cnt hall
    rw [List.foldl_cons]
    obtain ⟨r, hr⟩ := Option.isSome_iff_exists.mp (hall q (List.mem_cons_self q rest))
    rw [upsertStep_found now cid st cnt q r hr]
    exact ih st cnt (fun p hp => hall p (List.mem_cons_of_mem q hp))

end RssRepo

-- ============================================================================
-- C2: idempotence of re-applying the same input
-- ============================================================================

/-- C2 (amended): a second `upsertPosts` run with the identical parsed items
leaves the store unchanged and reports 0 new posts; a second
`ingestSubstackPosts` run over the same messages creates zero net-new
content and zero new ProcessedMessage rows (only the connection's last-sync
time advances), with every message counted as skipped — but the ledger can
hold fewer rows than the message count, because unextractable messages are
never recorded (see the counterexample). -/
theorem ingest_idempotent_amended :
    (∀ (now now2 cid : String) (st : RssRepo.RssState)
       (posts : List FeedParser.ParsedFeedItem),
       RssRepo.upsertPosts now2 cid (RssRepo.upsertPosts now cid st posts).1 posts
         = ((RssRepo.upsertPosts now cid st posts).1, 0)) ∧
    (∀ (userId connId : String) (st : GmailIngest.GmailState)
       (msgs : List GmailIngest.GmailMessage) (now now2 : String),
       GmailIngest.ingestSubstackPosts userId connId
           (GmailIngest.ingestSubstackPosts userId connId st msgs now).1 msgs now2
         = ({ (GmailIngest.ingestSubstackPosts userId connId st msgs now).1
                with lastSyncedAt := some now2 }, 0, msgs.length)) := by
  constructor
  · intro now now2 cid st posts
    show posts.foldl (RssRepo.upsertStep now2 cid) ((RssRepo.upsertPosts now cid st posts).1, 0)
        = ((RssRepo.upsertPosts now cid st posts).1, 0)
    exact RssRepo.upsertPosts_fold_noop now2 cid posts _ 0
      (fun p hp => RssRepo.upsertPosts_all_present now cid posts st 0 p hp)
  · intro userId connId st msgs now now2
    set st1 := (GmailIngest.ingestSubstackPosts userId connId st msgs now).1 with hst1
    have hall : ∀ m ∈ msgs,
        ((st1.ledger.find? (fun r => r.messageId == m.id)).isSome = true) ∨
          GmailIngest.parseSubstackPost m = none := by
      intro m hm
      cases h2 : GmailIngest.parseSubstackPost m with
      | none => exact Or.inr rfl
      | some post =>
        refine Or.inl ?_
        have : st1.ledger
            = (msgs.foldl (GmailIngest.ingestStep userId connId now) (st, 0, 0)).1.ledger := by
          rw [hst1]; rfl
        rw [this]
        exact GmailIngest.ingest_fold_marks userId connId now msgs (st, 0, 0) m post hm h2
    show ({ (msgs.foldl (GmailIngest.ingestStep userId connId now2) (st1, 0, 0)).1
              with lastSyncedAt := some now2 },
          (msgs.foldl (GmailIngest.ingestStep userId connId now2) (st1, 0, 0)).2.1,
          (msgs.foldl (GmailIngest.ingestStep userId connId now2) (st1, 0, 0)).2.2)
        = ({ st1 with lastSyncedAt := some now2 }, 0, msgs.length)
    rw [GmailIngest.ingest_fold_noop userId connId now2 msgs st1 0 0 hall]
    rw [Nat.zero_add]

def c2Empty : GmailIngest.GmailState :=
  { ledger := [], creators := [], contentItems := [], subscriptions := [],
    lastSyncedAt := none, nextId := 0 }

def c2Msg : GmailIngest.GmailMessage :=
  { id := "mx", threadId := "tx", headers := [], parts := [], body := none,
    internalDate := none, snippet := none }

/-- C2 (counterexample): over one unextractable mailbox message, two
identical ingestion runs leave the processed-message ledger with 0 rows,
not a count equal to the 1 fetched message as the claim states. -/
theorem secondRun_ledger_count_counterexample :
    ((GmailIngest.ingestSubstackPosts "u1" "g1"
        (GmailIngest.ingestSubstackPosts "u1" "g1" c2Empty [c2Msg] "t1").1
        [c2Msg] "t2").1.ledger.length = 0) ∧ (0 : Nat) ≠ [c2Msg].length :=
  ⟨rfl, by decide⟩

-- ============================================================================
-- C1: edit detection in upsertPosts (code bug: the lookup is by hash, so
-- the "update if edited" branch can never run)
-- ============================================================================

def c1OldHash : String := FeedParser.generateContentHash "https://blog.example/post-a" "t" "old content"

def c1NewHash : String := FeedParser.generateContentHash "https://blog.example/post-a" "t" "new content"

/-- Store after a first sync: one rss ContentItem for external identity
`https://blog.example/post-a` with the old content hash. -/
def c1State : RssRepo.RssState :=
  { sources := [], creators := [], nextId := 1,
    contentItems :=
      [{ contentId := "c0", creatorId := "cr", sourceType := "rss",
         externalId := "https://blog.example/post-a", title := "t", description := "d",
         contentUrl := "https://blog.example/post-a", mediaType := "article",
         publishedAt := "2024-01-01", addedAt := "2024-01-01",
         updatedAt := none, metadataAuthor := none, metadataContentHtml := some "old content",
         isArchived := false, contentHash := c1OldHash }] }

/-- The same item re-parsed after an edit: same GUID/url/title, new body,
hence a new content hash. -/
def c1Post : FeedParser.ParsedFeedItem :=
  { title := "t", url := "https://blog.example/post-a", description := some "d",
    contentHtml := some "new content", publishedAt := "2024-01-02", author := none,
    hash := c1NewHash, guid := some "https://blog.example/post-a" }

/-- C1 (the code at the failing input): re-ingesting the edited item leaves
the old row untouched and inserts a second ContentItem row for the same
external identity (the run even reports 1 new post), instead of updating
title/description/hash in place and keeping the count at 1.  The
`existingPost.contentHash !== post.hash` comparison in `upsertPosts` sits
inside a branch entered only when `contentHash = post.hash`, so it is dead
code and the edit update can never happen. -/
theorem upsertPosts_duplicates_edited_item :
    (c1OldHash ≠ c1NewHash) ∧
    (((RssRepo.upsertPosts "2024-01-02" "cr" c1State [c1Post]).1.contentItems.filter
        (fun r => r.externalId == "https://blog.example/post-a")).length = 2) ∧
    (RssRepo.upsertPosts "2024-01-02" "cr" c1State [c1Post]).2 = 1 := by
  refine ⟨?_, ?_, ?_⟩
  · set_option maxRecDepth 100000 in decide
  · set_option maxRecDepth 100000 in decide
  · set_option maxRecDepth 100000 in decide

-- ============================================================================
-- C6: 304 Not Modified is a pure status update
-- ============================================================================

/-- `find?` after a conditional in-place update keyed by the same predicate. -/
theorem find?_map_update {α} (p : α → Bool) (f : α → α) (l : List α)
    (hp : ∀ a, p (f a) = p a) :
    (l.map (fun a => if p a then f a else a)).find? p = (l.find? p).map f := by
  induction l with
  | nil => rfl
  | cons a l ih =>
    dsimp only [List.map]
    by_cases h : p a = true
    · rw [if_pos h, List.find?_cons_of_pos _ (by rw [hp]; exact h),
        List.find?_cons_of_pos _ h]
      rfl
    · rw [if_neg h, List.find?_cons_of_neg _ (by simpa using h),
        List.find?_cons_of_neg _ (by simpa using h), ih]

/-- C6: when the conditional fetch reports 304 (`fetchAndParseFeed` returns
null), `syncSource` returns normally having performed zero content
mutations — ContentItems, Creators and the id supply untouched — and the
source row keeps its etag/last-modified tokens while its sync status is
recorded as success with the error cleared. -/
theorem syncSource_notModified_frame (env : String → RssRepo.FetchOutcome) (now : String)
    (st : RssRepo.RssState) (sid : String) (src : RssRepo.RssSource)
    (hfind : st.sources.find? (fun s => s.sourceId == sid) = some src)
    (hact : src.isActive = true)
    (henv : env src.feedUrl = RssRepo.FetchOutcome.notModified) :
    (RssRepo.syncSource env now st sid).2 = Except.ok () ∧
    (RssRepo.syncSource env now st sid).1.contentItems = st.contentItems ∧
    (RssRepo.syncSource env now st sid).1.creators = st.creators ∧
    (RssRepo.syncSource env now st sid).1.nextId = st.nextId ∧
    ∃ src', (RssRepo.syncSource env now st sid).1.sources.find? (fun s => s.sourceId == sid)
        = some src' ∧
      src'.etag = src.etag ∧ src'.lastModified = src.lastModified ∧
      src'.lastSyncStatus = some RssRepo.SyncStatus.success ∧
      src'.lastSyncError = none := by
  have hstep : RssRepo.syncSource env now st sid =
      (RssRepo.updateSourceSync now sid RssRepo.SyncStatus.success none st, Except.ok ()) := by
    unfold RssRepo.syncSource
    rw [hfind]
    dsimp only
    rw [hact, if_neg (by decide)]
    rw [henv]
  rw [hstep]
  refine ⟨rfl, rfl, rfl, rfl, ?_⟩
  have hfound : (RssRepo.updateSourceSync now sid RssRepo.SyncStatus.success none st).sources.find?
      (fun s => s.sourceId == sid)
      = some { src with
          lastCheckedAt := some now, lastSyncedAt := some now,
          lastSyncStatus := some RssRepo.SyncStatus.success, lastSyncError := none } := by
    unfold RssRepo.updateSourceSync
    dsimp only
    rw [find?_map_update (fun s => s.sourceId == sid)
      (fun s => { s with
        lastCheckedAt := some now
        lastSyncedAt := if RssRepo.SyncStatus.success = RssRepo.SyncStatus.success
                        then some now else s.lastSyncedAt
        lastSyncStatus := some RssRepo.SyncStatus.success
        lastSyncError := JsStr.jsOr none none })
      st.sources (fun a => rfl), hfind]
    rfl
  exact ⟨_, hfound, rfl, rfl, rfl, rfl⟩

def c6Src : RssRepo.RssSource :=
  { sourceId := "s1", userId := "u1", siteUrl := "https://blog.example",
    feedUrl := "https://blog.example/feed.xml", feedType := RssRepo.FeedType.rss,
    feedTitle := some "Blog", feedDescription := none,
    discoveryMethod := RssRepo.DiscoveryMethod.wellKnownPath,
    etag := some "E1", lastModified := some "L1", lastCheckedAt := none,
    lastSyncedAt := none, lastSyncStatus := none, lastSyncError := some "old error",
    isActive := true }

def c6State : RssRepo.RssState :=
  { sources := [c6Src], creators := [], contentItems := [], nextId := 0 }

def c6Env : String → RssRepo.FetchOutcome := fun _ => RssRepo.FetchOutcome.notModified

/-- C6 witness: a concrete source with stored caching tokens, a 304 fetch. -/
theorem syncSource_notModified_witness :
    (c6State.sources.find? (fun s => s.sourceId == "s1") = some c6Src ∧
     c6Src.isActive = true ∧ c6Env c6Src.feedUrl = RssRepo.FetchOutcome.notModified) ∧
    ((RssRepo.syncSource c6Env "2024-02-01" c6State "s1").2 = Except.ok () ∧
     (RssRepo.syncSource c6Env "2024-02-01" c6State "s1").1.contentItems = c6State.contentItems ∧
     (RssRepo.syncSource c6Env "2024-02-01" c6State "s1").1.creators = c6State.creators ∧
     (RssRepo.syncSource c6Env "2024-02-01" c6State "s1").1.nextId = c6State.nextId ∧
     ∃ src', (RssRepo.syncSource c6Env "2024-02-01" c6State "s1").1.sources.find?
         (fun s => s.sourceId == "s1") = some src' ∧
       src'.etag = c6Src.etag ∧ src'.lastModified = c6Src.lastModified ∧
       src'.lastSyncStatus = some RssRepo.SyncStatus.success ∧
       src'.lastSyncError = none) :=
  ⟨⟨by decide, by decide, rfl⟩,
   syncSource_notModified_frame c6Env "2024-02-01" c6State "s1" c6Src
     (by decide) (by decide) rfl⟩

-- ============================================================================
-- C7: per-source independence of syncAllSources
-- ============================================================================

namespace RssRepo

/-- The sync status `syncSource` records for a given fetch outcome. -/
def expectedStatus : FetchOutcome → SyncStatus
  | FetchOutcome.failure _ => SyncStatus.error
  | _ => SyncStatus.success

/-- The last-error column `syncSource` records for a given fetch outcome. -/
def expectedError : FetchOutcome → Option String
  | FetchOutcome.failure msg => JsStr.jsOr (some msg) none
  | _ => none

/-- The sync-invariant core of a source row: identity, feed URL, owner, and
active flag — the fields `syncSource` never touches. -/
def coreOf (s : RssSource) : String × String × String × Bool :=
  (s.sourceId, s.feedUrl, s.userId, s.isActive)

theorem map_update_coreOf (sid : String) (f : RssSource → RssSource)
    (hf : ∀ s, coreOf (f s) = coreOf s) (l : List RssSource) :
    ((l.map (fun s => if s.sourceId == sid then f s else s)).map coreOf) = l.map coreOf := by
  induction l with
  | nil => rfl
  | cons a t ih =>
    dsimp only [List.map]
    by_cases h : (a.sourceId == sid) = true
    · rw [if_pos h, hf a, ih]
    · rw [if_neg h, ih]

theorem updateSourceSync_core (now sid : String) (status : SyncStatus) (err : Option String)
    (st : RssState) :
    ((updateSourceSync now sid status err st).sources).map coreOf = st.sources.map coreOf := by
  unfold updateSourceSync
  dsimp only
  exact map_update_coreOf sid
    (fun s => { s with
      lastCheckedAt := some now
      lastSyncedAt := if status = SyncStatus.success then some now else s.lastSyncedAt
      lastSyncStatus := some status
      lastSyncError := JsStr.jsOr err none })
    (fun s => rfl) st.sources

theorem updateSourceHeaders_core (sid : String) (etag lastModified : Option String)
    (st : RssState) :
    ((updateSourceHeaders sid etag lastModified st).sources).map coreOf
      = st.sources.map coreOf := by
  unfold updateSourceHeaders
  dsimp only
  exact map_update_coreOf sid
    (fun s => { s with etag := JsStr.jsOr etag none, lastModified := JsStr.jsOr lastModified none })
    (fun s => rfl) st.sources

theorem upsertCreator_sources (now feedUrl feedTitle : String) (feedDescription : Option String)
    (st : RssState) :
    (upsertCreator now feedUrl feedTitle feedDescription st).2.sources = st.sources := by
  unfold upsertCreator
  dsimp only
  split <;> rfl

theorem upsertStep_sources (now cid : String) (acc : RssState × Nat)
    (post : FeedParser.ParsedFeedItem) :
    (upsertStep now cid acc post).1.sources = acc.1.sources := by
  unfold upsertStep
  dsimp only
  split
  · split <;> rfl
  · rfl

theorem upsertPosts_sources (now cid : String) (st : RssState)
    (posts : List FeedParser.ParsedFeedItem) :
    ((upsertPosts now cid st posts).1).sources = st.sources := by
  show ((posts.foldl (upsertStep now cid) (st, 0)).1).sources = st.sources
  refine foldl_inv (P := fun acc => acc.1.sources = st.sources) _ ?_ posts (st, 0) rfl
  intro b a hb
  rw [upsertStep_sources now cid b a, hb]

/-- One `syncSource` run never changes any row's identity core. -/
theorem syncSource_core (env : String → FetchOutcome) (now : String) (st : RssState)
    (sid : String) :
    (((syncSource env now st sid).1).sources).map coreOf = st.sources.map coreOf := by
  unfold syncSource
  cases hf : st.sources.find? (fun s => s.sourceId == sid) with
  | none => rfl
  | some src =>
    dsimp only
    by_cases ha : src.isActive = true
    · rw [ha, if_neg (by decide)]
      cases he : env src.feedUrl with
      | notModified => exact updateSourceSync_core now sid SyncStatus.success none st
      | failure msg => exact updateSourceSync_core now sid SyncStatus.error (some msg) st
      | ok feed etag lastModified =>
        dsimp only
        rw [updateSourceSync_core, upsertPosts_sources, upsertCreator_sources,
          updateSourceHeaders_core]
    · have ha' : src.isActive = false := by simpa using ha
      rw [ha']
      rfl

end RssRepo

namespace RssRepo

/-- Lists with equal identity cores agree (up to core) on id lookups. -/
theorem find?_core (sid : String) :
    ∀ (l l' : List RssSource), l'.map coreOf = l.map coreOf →
      Option.map coreOf (l'.find? (fun s => s.sourceId == sid))
        = Option.map coreOf (l.find? (fun s => s.sourceId == sid)) := by
  intro l
  induction l with
  | nil =>
    intro l' h
    cases l' with
    | nil => rfl
    | cons a t => simp at h
  | cons a t ih =>
    intro l' h
    cases l' with
    | nil => simp at h
    | cons a' t' =>
      simp only [List.map_cons] at h
      injection h with hhead htail
      have hsid : a'.sourceId = a.sourceId := congrArg (fun q => q.1) hhead
      by_cases hp : (a.sourceId == sid) = true
      · have hp' : (a'.sourceId == sid) = true := by rw [hsid]; exact hp
        rw [@List.find?_cons_of_pos _ (fun s => s.sourceId == sid) a' t' hp',
          @List.find?_cons_of_pos _ (fun s => s.sourceId == sid) a t hp]
        simp only [Option.map_some']
        rw [hhead]
      · have hp' : ¬(a'.sourceId == sid) = true := by rw [hsid]; exact hp
        rw [@List.find?_cons_of_neg _ (fun s => s.sourceId == sid) a' t' hp',
          @List.find?_cons_of_neg _ (fun s => s.sourceId == sid) a t hp]
        exact ih t' htail

/-- With no duplicate ids, looking up a member's id finds that member. -/
theorem find?_of_mem_nodup (l : List RssSource) (s : RssSource)
    (hnd : (l.map (fun r => r.sourceId)).Nodup) (hmem : s ∈ l) :
    l.find? (fun r => r.sourceId == s.sourceId) = some s := by
  induction l with
  | nil => cases hmem
  | cons a t ih =>
    have hnd' : a.sourceId ∉ t.map (fun r => r.sourceId) ∧
        (t.map (fun r => r.sourceId)).Nodup := List.nodup_cons.mp hnd
    rcases List.mem_cons.mp hmem with rfl | hmem'
    · exact List.find?_cons_of_pos t (by simp)
    · by_cases hp : (a.sourceId == s.sourceId) = true
      · exfalso
        have hin : s.sourceId ∈ t.map (fun r => r.sourceId) :=
          List.mem_map_of_mem _ hmem'
        exact hnd'.1 (by rw [eq_of_beq hp]; exact hin)
      · rw [@List.find?_cons_of_neg _ (fun r => r.sourceId == s.sourceId) a t hp]
        exact ih hnd'.2 hmem'

end RssRepo

/-- `find?` for a predicate untouched by a conditional update keyed on a
disjoint predicate. -/
theorem find?_map_other {α} (q p : α → Bool) (f : α → α) (l : List α)
    (hq : ∀ a, q (f a) = q a) (hqp : ∀ a, q a = true → p a = false) :
    (l.map (fun a => if p a then f a else a)).find? q = l.find? q := by
  induction l with
  | nil => rfl
  | cons a t ih =>
    dsimp only [List.map]
    by_cases hqa : q a = true
    · have hpa : p a = false := hqp a hqa
      rw [if_neg (by simp [hpa]), List.find?_cons_of_pos _ hqa, List.find?_cons_of_pos _ hqa]
    · have hqa' : q a = false := by simpa using hqa
      by_cases hpa : p a = true
      · rw [if_pos hpa, List.find?_cons_of_neg _ (by simp [hq, hqa']),
          List.find?_cons_of_neg _ (by simp [hqa']), ih]
      · rw [if_neg hpa, List.find?_cons_of_neg _ (by simp [hqa']),
          List.find?_cons_of_neg _ (by simp [hqa']), ih]

namespace RssRepo

/-- Looking up the updated id after `updateSourceSync`. -/
theorem updateSourceSync_find (now sid : String) (status : SyncStatus) (err : Option String)
    (st : RssState) (src : RssSource)
    (hfind : st.sources.find? (fun s => s.sourceId == sid) = some src) :
    ((updateSourceSync now sid status err st).sources).find? (fun s => s.sourceId == sid)
      = some { src with
          lastCheckedAt := some now
          lastSyncedAt := if status = SyncStatus.success then some now else src.lastSyncedAt
          lastSyncStatus := some status
          lastSyncError := JsStr.jsOr err none } := by
  unfold updateSourceSync
  dsimp only
  rw [find?_map_update (fun s => s.sourceId == sid)
    (fun s => { s with
      lastCheckedAt := some now
      lastSyncedAt := if status = SyncStatus.success then some now else s.lastSyncedAt
      lastSyncStatus := some status
      lastSyncError := JsStr.jsOr err none })
    st.sources (fun a => rfl), hfind]
  rfl

/-- Looking up the updated id after `updateSourceHeaders`. -/
theorem updateSourceHeaders_find (sid : String) (etag lastModified : Option String)
    (st : RssState) (src : RssSource)
    (hfind : st.sources.find? (fun s => s.sourceId == sid) = some src) :
    ((updateSourceHeaders sid etag lastModified st).sources).find? (fun s => s.sourceId == sid)
      = some { src with
          etag := JsStr.jsOr etag none
          lastModified := JsStr.jsOr lastModified none } := by
  unfold updateSourceHeaders
  dsimp only
  rw [find?_map_update (fun s => s.sourceId == sid)
    (fun s => { s with etag := JsStr.jsOr etag none, lastModified := JsStr.jsOr lastModified none })
    st.sources (fun a => rfl), hfind]
  rfl

/-- `syncSource` on an active row records exactly the status and error
determined by that row's own fetch outcome. -/
theorem syncSource_sets_status (env : String → FetchOutcome) (now : String) (st : RssState)
    (sid : String) (src : RssSource)
    (hfind : st.sources.find? (fun s => s.sourceId == sid) = some src)
    (hact : src.isActive = true) :
    ∃ r, (((syncSource env now st sid).1).sources).find? (fun s => s.sourceId == sid)
        = some r ∧
      r.lastSyncStatus = some (expectedStatus (env src.feedUrl)) ∧
      r.lastSyncError = expectedError (env src.feedUrl) := by
  unfold syncSource
  rw [hfind]
  dsimp only
  rw [hact, if_neg (by decide)]
  cases he : env src.feedUrl with
  | notModified =>
    exact ⟨_, updateSourceSync_find now sid SyncStatus.success none st src hfind, rfl, rfl⟩
  | failure msg =>
    exact ⟨_, updateSourceSync_find now sid SyncStatus.error (some msg) st src hfind, rfl, rfl⟩
  | ok feed etag lastModified =>
    dsimp only
    have hok : ((upsertPosts now
        (upsertCreator now src.feedUrl
          (JsStr.jsOrStr (JsStr.jsOr feed.title src.feedTitle) "Untitled Blog")
          (JsStr.jsOr feed.description src.feedDescription)
          (updateSourceHeaders sid etag lastModified st)).1
        (upsertCreator now src.feedUrl
          (JsStr.jsOrStr (JsStr.jsOr feed.title src.feedTitle) "Untitled Blog")
          (JsStr.jsOr feed.description src.feedDescription)
          (updateSourceHeaders sid etag lastModified st)).2
        feed.items).1).sources.find? (fun s => s.sourceId == sid)
        = some { src with
            etag := JsStr.jsOr etag none
            lastModified := JsStr.jsOr lastModified none } := by
      rw [upsertPosts_sources, upsertCreator_sources]
      exact updateSourceHeaders_find sid etag lastModified st src hfind
    exact ⟨_, updateSourceSync_find now sid SyncStatus.success none _ _ hok, rfl, rfl⟩

/-- `syncSource` on one id leaves every other id's row untouched. -/
theorem updateSourceSync_other (now sid : String) (status : SyncStatus) (err : Option String)
    (st : RssState) (y : String) (hne : (y == sid) = false) :
    ((updateSourceSync now sid status err st).sources).find? (fun s => s.sourceId == y)
      = st.sources.find? (fun s => s.sourceId == y) := by
  unfold updateSourceSync
  dsimp only
  exact find?_map_other (fun s => s.sourceId == y) (fun s => s.sourceId == sid)
    (fun s => { s with
      lastCheckedAt := some now
      lastSyncedAt := if status = SyncStatus.success then some now else s.lastSyncedAt
      lastSyncStatus := some status
      lastSyncError := JsStr.jsOr err none })
    st.sources (fun a => rfl)
    (fun a ha => by
      have ha' : (a.sourceId == y) = true := ha
      show (a.sourceId == sid) = false
      rw [eq_of_beq ha']
      exact hne)

theorem updateSourceHeaders_other (sid : String) (etag lastModified : Option String)
    (st : RssState) (y : String) (hne : (y == sid) = false) :
    ((updateSourceHeaders sid etag lastModified st).sources).find? (fun s => s.sourceId == y)
      = st.sources.find? (fun s => s.sourceId == y) := by
  unfold updateSourceHeaders
  dsimp only
  exact find?_map_other (fun s => s.sourceId == y) (fun s => s.sourceId == sid)
    (fun s => { s with etag := JsStr.jsOr etag none, lastModified := JsStr.jsOr lastModified none })
    st.sources (fun a => rfl)
    (fun a ha => by
      have ha' : (a.sourceId == y) = true := ha
      show (a.sourceId == sid) = false
      rw [eq_of_beq ha']
      exact hne)

theorem syncSource_other (env : String → FetchOutcome) (now : String) (st : RssState)
    (sid y : String) (hne : (y == sid) = false) :
    (((syncSource env now st sid).1).sources).find? (fun s => s.sourceId == y)
      = st.sources.find? (fun s => s.sourceId == y) := by
  unfold syncSource
  cases hf : st.sources.find? (fun s => s.sourceId == sid) with
  | none => rfl
  | some src =>
    dsimp only
    by_cases ha : src.isActive = true
    · rw [ha, if_neg (by decide)]
      cases he : env src.feedUrl with
      | notModified => exact updateSourceSync_other now sid SyncStatus.success none st y hne
      | failure msg => exact updateSourceSync_other now sid SyncStatus.error (some msg) st y hne
      | ok feed etag lastModified =>
        dsimp only
        rw [updateSourceSync_other now sid SyncStatus.success none _ y hne,
          upsertPosts_sources, upsertCreator_sources,
          updateSourceHeaders_other sid etag lastModified st y hne]
    · have ha' : src.isActive = false := by simpa using ha
      rw [ha']
      rfl

/-- Folding syncs whose ids all differ from `y` keeps `y`'s row as it is. -/
theorem syncAll_keep (env : String → FetchOutcome) (now : String) :
    ∀ (L : List RssSource) (st : RssState) (y : String) (r : RssSource),
      (∀ x ∈ L, (y == x.sourceId) = false) →
      st.sources.find? (fun s => s.sourceId == y) = some r →
      (((L.foldl (fun acc x => (syncSource env now acc x.sourceId).1) st)).sources).find?
          (fun s => s.sourceId == y) = some r := by
  intro L
  induction L with
  | nil => intro st y r _ hf; exact hf
  | cons a t ih =>
    intro st y r hall hf
    rw [List.foldl_cons]
    refine ih _ y r (fun x hx => hall x (List.mem_cons_of_mem a hx)) ?_
    rw [syncSource_other env now st a.sourceId y (hall a (List.mem_cons_self a t))]
    exact hf

end RssRepo

/-- C7: `syncAllSources` (a total function — the per-source try/catch means
the batch never raises) processes each active source independently: whatever
the other sources' outcomes, each source of the batch ends with the sync
status and error text determined by its own fetch outcome. -/
theorem syncAllSources_partial_failure_isolation
    (env : String → RssRepo.FetchOutcome) (now : String) (st : RssRepo.RssState)
    (userId : String) (s : RssRepo.RssSource)
    (hnd : (st.sources.map (fun r => r.sourceId)).Nodup)
    (hmem : s ∈ RssRepo.getUserSources st userId) :
    ∃ r, ((RssRepo.syncAllSources env now st userId).sources.find?
        (fun x => x.sourceId == s.sourceId)) = some r ∧
      r.lastSyncStatus = some (RssRepo.expectedStatus (env s.feedUrl)) ∧
      r.lastSyncError = RssRepo.expectedError (env s.feedUrl) := by
  have hsf : s ∈ st.sources ∧ (s.userId == userId && s.isActive) = true :=
    List.mem_filter.mp hmem
  have hact : s.isActive = true := ((Bool.and_eq_true _ _).mp hsf.2).2
  -- ids of the snapshot are nodup, inherited from the table
  have hndL : ((RssRepo.getUserSources st userId).map (fun r => r.sourceId)).Nodup :=
    ((List.filter_sublist st.sources).map (fun r => r.sourceId)).nodup hnd
  obtain ⟨L1, L2, hL⟩ := List.append_of_mem hmem
  unfold RssRepo.syncAllSources
  rw [hL, List.foldl_append, List.foldl_cons]
  -- after the L1 folds, s's row still has its identity core
  have hcoreA : ((L1.foldl (fun acc x => (RssRepo.syncSource env now acc x.sourceId).1) st).sources).map
      RssRepo.coreOf = st.sources.map RssRepo.coreOf := by
    refine foldl_inv (P := fun q => q.sources.map RssRepo.coreOf = st.sources.map RssRepo.coreOf)
      _ ?_ L1 st rfl
    intro b a hb
    rw [RssRepo.syncSource_core env now b a.sourceId, hb]
  have hfst : st.sources.find? (fun x => x.sourceId == s.sourceId) = some s :=
    RssRepo.find?_of_mem_nodup st.sources s hnd hsf.1
  have hfc := RssRepo.find?_core s.sourceId st.sources
    ((L1.foldl (fun acc x => (RssRepo.syncSource env now acc x.sourceId).1) st).sources) hcoreA
  rw [hfst] at hfc
  obtain ⟨rA, hrA, hrAcore⟩ := Option.map_eq_some'.mp hfc
  have hrAact : rA.isActive = true := by
    have := congrArg (fun q => q.2.2.2) hrAcore
    simpa [RssRepo.coreOf, hact] using this
  have hrAurl : rA.feedUrl = s.feedUrl := by
    have := congrArg (fun q => q.2.1) hrAcore
    simpa [RssRepo.coreOf] using this
  obtain ⟨rB, hB, hBstat, hBerr⟩ :=
    RssRepo.syncSource_sets_status env now _ s.sourceId rA hrA hrAact
  rw [hrAurl] at hBstat hBerr
  -- the later sources carry different ids, so s's row survives the tail fold
  have hL2 : ∀ x ∈ L2, (s.sourceId == x.sourceId) = false := by
    have hmapL : ((RssRepo.getUserSources st userId).map (fun r => r.sourceId))
        = (L1.map (fun r => r.sourceId)) ++ s.sourceId :: (L2.map (fun r => r.sourceId)) := by
      rw [hL]
      simp [List.map_append]
    rw [hmapL] at hndL
    have hcons := (List.Nodup.of_append_right hndL)
    have hnotin : s.sourceId ∉ L2.map (fun r => r.sourceId) := (List.nodup_cons.mp hcons).1
    intro x hx
    rcases hbe : (s.sourceId == x.sourceId) with _ | _
    · rfl
    · exfalso
      exact hnotin ((eq_of_beq hbe) ▸ List.mem_map_of_mem (fun r => r.sourceId) hx)
  exact ⟨rB, RssRepo.syncAll_keep env now L2 _ s.sourceId rB hL2 hB, hBstat, hBerr⟩

def c7SrcA : RssRepo.RssSource :=
  { sourceId := "sA", userId := "u1", siteUrl := "https://a.example",
    feedUrl := "https://a.example/feed.xml", feedType := RssRepo.FeedType.rss,
    feedTitle := none, feedDescription := none,
    discoveryMethod := RssRepo.DiscoveryMethod.wellKnownPath,
    etag := none, lastModified := none, lastCheckedAt := none,
    lastSyncedAt := none, lastSyncStatus := none, lastSyncError := none,
    isActive := true }

def c7SrcB : RssRepo.RssSource :=
  { sourceId := "sB", userId := "u1", siteUrl := "https://b.example",
    feedUrl := "https://b.example/feed.xml", feedType := RssRepo.FeedType.rss,
    feedTitle := none, feedDescription := none,
    discoveryMethod := RssRepo.DiscoveryMethod.wellKnownPath,
    etag := none, lastModified := none, lastCheckedAt := none,
    lastSyncedAt := none, lastSyncStatus := none, lastSyncError := none,
    isActive := true }

def c7State : RssRepo.RssState :=
  { sources := [c7SrcA, c7SrcB], creators := [], contentItems := [], nextId := 0 }

/-- The first source times out; the second is fine. -/
def c7Env : String → RssRepo.FetchOutcome := fun url =>
  if url == "https://a.example/feed.xml" then RssRepo.FetchOutcome.failure "Request timeout"
  else RssRepo.FetchOutcome.notModified

/-- C7 witness: in a batch where source A fails, source B is still synced
and reported with its own success status. -/
theorem syncAllSources_witness :
    ((c7State.sources.map (fun r => r.sourceId)).Nodup ∧
     c7SrcB ∈ RssRepo.getUserSources c7State "u1") ∧
    ∃ r, ((RssRepo.syncAllSources c7Env "2024-02-01" c7State "u1").sources.find?
        (fun x => x.sourceId == c7SrcB.sourceId)) = some r ∧
      r.lastSyncStatus = some (RssRepo.expectedStatus (c7Env c7SrcB.feedUrl)) ∧
      r.lastSyncError = RssRepo.expectedError (c7Env c7SrcB.feedUrl) :=
  ⟨⟨by decide, by decide⟩,
   syncAllSources_partial_failure_isolation c7Env "2024-02-01" c7State "u1" c7SrcB
     (by decide) (by decide)⟩

-- ============================================================================
-- C8: well-known-path discovery wins over HTML link tags
-- ============================================================================

namespace Discovery

/-- The probe loop returns the result of the first path whose probe passes
the guard. -/
theorem probeWellKnown_first (check : String → FeedCheckResult) (base : String) :
    ∀ (ps : List String) (p₀ : String),
      ps.find? (fun p => goodProbe (check (base ++ p))) = some p₀ →
      probeWellKnown check base ps = some
        { feedUrl := (check (base ++ p₀)).feedUrl.getD ""
          feedType := (check (base ++ p₀)).feedType.getD RssRepo.FeedType.rss
          discoveryMethod := RssRepo.DiscoveryMethod.wellKnownPath
          feedTitle := (check (base ++ p₀)).feedTitle
          feedDescription := (check (base ++ p₀)).feedDescription
          siteUrl := base } := by
  intro ps
  induction ps with
  | nil => intro p₀ h; simp at h
  | cons q rest ih =>
    intro p₀ h
    by_cases hg : goodProbe (check (base ++ q)) = true
    · rw [@List.find?_cons_of_pos _ (fun p => goodProbe (check (base ++ p))) q rest hg] at h
      injection h with h
      subst h
      unfold probeWellKnown
      rw [if_pos hg]
    · rw [@List.find?_cons_of_neg _ (fun p => goodProbe (check (base ++ p))) q rest hg] at h
      unfold probeWellKnown
      rw [if_neg hg]
      exact ih p₀ h

end Discovery

/-- C8: whenever at least one well-known path probes as a classifiable
success, `discoverFeed` succeeds with discovery method `well-known-path`
for the first such path — never with the `html-link-tag` method, whatever
feed links the site's HTML may advertise. -/
theorem discoverFeed_wellKnown_priority (check : String → Discovery.FeedCheckResult)
    (htmlLinks : String → Option (List Discovery.LinkTag)) (siteUrl p₀ : String)
    (h : Discovery.WELL_KNOWN_PATHS.find?
        (fun p => Discovery.goodProbe (check (Discovery.normalizeSiteUrl siteUrl ++ p)))
      = some p₀) :
    ∃ res, Discovery.discoverFeed check htmlLinks siteUrl = Except.ok res ∧
      res.discoveryMethod = RssRepo.DiscoveryMethod.wellKnownPath ∧
      res.discoveryMethod ≠ RssRepo.DiscoveryMethod.htmlLinkTag ∧
      res.feedUrl = (check (Discovery.normalizeSiteUrl siteUrl ++ p₀)).feedUrl.getD "" := by
  unfold Discovery.discoverFeed
  dsimp only
  rw [Discovery.probeWellKnown_first check (Discovery.normalizeSiteUrl siteUrl)
    Discovery.WELL_KNOWN_PATHS p₀ h]
  exact ⟨_, rfl, rfl, by simp, rfl⟩

def c8Check : String → Discovery.FeedCheckResult := fun url =>
  if url == "https://x.example/rss.xml" then
    { success := true, feedUrl := some "https://x.example/rss.xml",
      feedType := some RssRepo.FeedType.rss, feedTitle := some "X",
      feedDescription := none, etag := none, lastModified := none }
  else
    { success := false, feedUrl := none, feedType := none, feedTitle := none,
      feedDescription := none, etag := none, lastModified := none }

/-- The site's HTML also advertises a feed via a link tag. -/
def c8HtmlLinks : String → Option (List Discovery.LinkTag) := fun _ =>
  some [{ url := "https://x.example/alternate.xml", type := "application/rss+xml" }]

/-- C8 witness: a site answering on `/rss.xml` (second well-known path) and
also advertising an HTML alternate link is discovered via the well-known
path. -/
theorem discoverFeed_wellKnown_witness :
    (Discovery.WELL_KNOWN_PATHS.find?
        (fun p => Discovery.goodProbe (c8Check (Discovery.normalizeSiteUrl "x.example" ++ p)))
      = some "/rss.xml") ∧
    ∃ res, Discovery.discoverFeed c8Check c8HtmlLinks "x.example" = Except.ok res ∧
      res.discoveryMethod = RssRepo.DiscoveryMethod.wellKnownPath ∧
      res.discoveryMethod ≠ RssRepo.DiscoveryMethod.htmlLinkTag ∧
      res.feedUrl = (c8Check (Discovery.normalizeSiteUrl "x.example" ++ "/rss.xml")).feedUrl.getD "" :=
  ⟨by decide,
   discoverFeed_wellKnown_priority c8Check c8HtmlLinks "x.example" "/rss.xml" (by decide)⟩

-- ============================================================================
-- Known-answer checks for the SHA-256 embedding (FIPS 180-4 test vectors)
-- ============================================================================

set_option maxRecDepth 10000 in
/-- The embedded SHA-256 matches the standard test vectors for the empty
string and "abc", so the content-hash theorems above are about the real
function that the sha256 primitive of crypto.createHash computes. -/
theorem sha256Hex_known_answers :
    SpecSha.sha256Hex ""
      = "e3b0c44298fc1c149afbf4c8996fb92427ae41e4649b934ca495991b7852b855" ∧
    SpecSha.sha256Hex "abc"
      = "ba7816bf8f01cfea414140de5dae2223b00361a396177a9cb410ff61f20015ad" := by
  constructor <;> decide
